import Mathlib

/-!
Verification of the Intel HEX streaming decoder (`components/ihex/ihex.c`,
`components/ihex/include/ihex.h`).

The C code is shallowly embedded: machine integers (`uint8_t`, `uint16_t`,
`uint32_t`) become `Nat` with explicit `% 2^w` truncation exactly where the C
types truncate; the mutable `ihex_tLexer` struct becomes a Lean structure
passed and returned explicitly.  The data callback is stored once by
`ihex_Init` and never mutated afterwards, so it is threaded as an explicit
`Option ihex_tDataCallback` parameter (`none` models a NULL `funcData`
pointer).  Every step additionally returns the list of callback invocations
(address, byte) it performed, so that theorems can speak about the callback
trace.
-/

namespace IHex

/-- `ihex_tLexerState` from ihex.h. -/
inductive ihex_tLexerState
  | IHEX_LEXER_STATE_WAIT_COLON
  | IHEX_LEXER_STATE_WAIT_BYTE_COUNT
  | IHEX_LEXER_STATE_WAIT_ADDRESS
  | IHEX_LEXER_STATE_WAIT_TYPE
  | IHEX_LEXER_STATE_WAIT_DATA
  | IHEX_LEXER_STATE_WAIT_CHECK_SUM
deriving DecidableEq, Repr

open ihex_tLexerState

/-- `ihex_tLexerTokenType` from ihex.h. -/
inductive ihex_tLexerTokenType
  | IHEX_LEXER_TOKENTYPE_RECORD_MARK
  | IHEX_LEXER_TOKENTYPE_RECLEN
  | IHEX_LEXER_TOKENTYPE_LOAD_OFFSET
  | IHEX_LEXER_TOKENTYPE_RECTYP
  | IHEX_LEXER_TOKENTYPE_DATA
  | IHEX_LEXER_TOKENTYPE_CHKSUM
deriving DecidableEq, Repr

open ihex_tLexerTokenType

/-- `ihex_tMessage` from ihex.h. -/
inductive ihex_tMessage
  | IHEX_MESSAGE_CONTINUE
  | IHEX_MESSAGE_END
  | IHEX_MESSAGE_INVALID_INPUT_DATA
  | IHEX_MESSAGE_CHECK_SUM_ERROR
  | IHEX_MESSAGE_VERIFICATION_ERROR
deriving DecidableEq, Repr

open ihex_tMessage

/-- `ihex_tRecordData` from ihex.h: `record_mark`, `reclen`, `rectyp`, `data`,
`target_check_sum` are `uint8_t` (values < 256); `load_offset` is `uint16_t`
(value < 65536). -/
structure ihex_tRecordData where
  record_mark : Nat
  reclen : Nat
  load_offset : Nat
  rectyp : Nat
  data : Nat
  target_check_sum : Nat
deriving DecidableEq, Repr

/-- `ihex_tLexer` from ihex.h: `num_expected_characters`, `rec_byte_offset`
are `uint16_t`; `ext_offset_byte_pos`, `calc_chksum` are `uint8_t`;
`ext_offset` is `uint32_t`. -/
structure ihex_tLexer where
  state : ihex_tLexerState
  num_expected_characters : Nat
  ext_offset_byte_pos : Nat
  ext_offset : Nat
  rec_byte_offset : Nat
  calc_chksum : Nat
  record_data : ihex_tRecordData
deriving DecidableEq, Repr

/-- `ihex_tDataCallback` from ihex.h: takes a 32-bit absolute address and a
data byte, returns a status. -/
def ihex_tDataCallback : Type := Nat → Nat → ihex_tMessage

/-- `memset(&record_data, 0, sizeof ...)` at the start of a record. -/
def ihex_zeroRecordData : ihex_tRecordData :=
  { record_mark := 0, reclen := 0, load_offset := 0, rectyp := 0, data := 0,
    target_check_sum := 0 }

/-- `ihex_Begin`: resets the state to WAIT_COLON and clears the extension
offset; all other fields keep whatever value they had. -/
def ihex_Begin (L : ihex_tLexer) : ihex_tLexer :=
  { L with state := IHEX_LEXER_STATE_WAIT_COLON, ext_offset := 0 }

/-- `ihex_IsValidData`: `:`, `0`-`9`, `A`-`F`, `a`-`f` (byte values 58,
48-57, 65-70, 97-102). -/
def ihex_IsValidData (data : Nat) : Bool :=
  (data == 58) ||
    ((48 ≤ data) && (data ≤ 57)) ||
    ((65 ≤ data) && (data ≤ 70)) ||
    ((97 ≤ data) && (data ≤ 102))

/-- `ihex_CharToValue`: converts an ASCII hex digit to its value; the C
function returns -1 on failure, modelled as `none`. -/
def ihex_CharToValue (data : Nat) : Option Nat :=
  if 48 ≤ data ∧ data ≤ 57 then some (data - 48)
  else if 65 ≤ data ∧ data ≤ 70 then some (data - 65 + 10)
  else if 97 ≤ data ∧ data ≤ 102 then some (data - 97 + 10)
  else none

/-- `ihex_InsertDigit`: writes a nibble into nibble slot `digit_pos` of a
16-bit field.  `digit_pos` is a `uint8_t` parameter (callers pass a
`uint16_t`, truncated), `mask` and `new_data` are `uint16_t` locals, so each
shift result is truncated to 16 bits exactly as the stores in C do. -/
def ihex_InsertDigit (src_val nibble_data digit_pos : Nat) : Nat :=
  let pos := digit_pos % 256
  let mask := (15 <<< (pos * 4)) % 65536
  let new_data := (((nibble_data % 256) &&& 15) <<< (pos * 4)) % 65536
  ((src_val &&& (65535 ^^^ mask)) ||| (new_data &&& mask)) % 65536

/-- `ihex_SetNextState`. -/
def ihex_SetNextState (L : ihex_tLexer) (next_state : ihex_tLexerState)
    (num_expected_digits : Nat) : ihex_tLexer :=
  { L with state := next_state, num_expected_characters := num_expected_digits }

/-- `ihex_LexerTokenStream`: consumes one completed token, updating the
running checksum, extension offset and record byte offset, and dispatching
payload bytes of a type-00 record to the data callback.  Returns the
message, the updated lexer, and the callback invocations performed. -/
def ihex_LexerTokenStream (funcData : Option ihex_tDataCallback)
    (L : ihex_tLexer) (token_type : ihex_tLexerTokenType) (token_data : Nat) :
    ihex_tMessage × ihex_tLexer × List (Nat × Nat) :=
  match token_type with
  | IHEX_LEXER_TOKENTYPE_RECORD_MARK =>
      (IHEX_MESSAGE_CONTINUE,
        { L with calc_chksum := 0, rec_byte_offset := 0 }, [])
  | IHEX_LEXER_TOKENTYPE_RECLEN =>
      (IHEX_MESSAGE_CONTINUE,
        { L with calc_chksum := (L.calc_chksum + token_data) % 256 }, [])
  | IHEX_LEXER_TOKENTYPE_LOAD_OFFSET =>
      (IHEX_MESSAGE_CONTINUE,
        { L with calc_chksum :=
            (L.calc_chksum + (token_data / 256 + token_data % 256)) % 256 }, [])
  | IHEX_LEXER_TOKENTYPE_RECTYP =>
      let L1 := { L with calc_chksum := (L.calc_chksum + token_data) % 256 }
      if L1.record_data.rectyp = 2 then
        (IHEX_MESSAGE_CONTINUE,
          { L1 with ext_offset := 0, ext_offset_byte_pos := 1 }, [])
      else if L1.record_data.rectyp = 4 then
        (IHEX_MESSAGE_CONTINUE,
          { L1 with ext_offset := 0, ext_offset_byte_pos := 3 }, [])
      else
        (IHEX_MESSAGE_CONTINUE, L1, [])
  | IHEX_LEXER_TOKENTYPE_DATA =>
      let L1 := { L with calc_chksum := (L.calc_chksum + token_data) % 256 }
      if L1.record_data.rectyp = 0 then
        let addr := (L1.ext_offset + L1.record_data.load_offset
          + L1.rec_byte_offset) % 4294967296
        let L2 := { L1 with rec_byte_offset := (L1.rec_byte_offset + 1) % 65536 }
        match funcData with
        | none => (IHEX_MESSAGE_CONTINUE, L2, [])
        | some f => (f addr token_data, L2, [(addr, token_data)])
      else if L1.record_data.rectyp = 2 then
        let L2 := { L1 with ext_offset :=
          (L1.ext_offset ||| (token_data <<< (8 * L1.ext_offset_byte_pos))) % 4294967296 }
        let L3 :=
          if L2.ext_offset_byte_pos = 0 then
            { L2 with ext_offset := (L2.ext_offset <<< 4) % 4294967296 }
          else L2
        (IHEX_MESSAGE_CONTINUE,
          { L3 with ext_offset_byte_pos := (L3.ext_offset_byte_pos + 255) % 256,
                    rec_byte_offset := (L3.rec_byte_offset + 1) % 65536 }, [])
      else if L1.record_data.rectyp = 4 then
        let L2 := { L1 with ext_offset :=
          (L1.ext_offset ||| (token_data <<< (8 * L1.ext_offset_byte_pos))) % 4294967296 }
        (IHEX_MESSAGE_CONTINUE,
          { L2 with ext_offset_byte_pos := (L2.ext_offset_byte_pos + 255) % 256,
                    rec_byte_offset := (L2.rec_byte_offset + 1) % 65536 }, [])
      else
        (IHEX_MESSAGE_CONTINUE,
          { L1 with rec_byte_offset := (L1.rec_byte_offset + 1) % 65536 }, [])
  | IHEX_LEXER_TOKENTYPE_CHKSUM =>
      let L1 := { L with calc_chksum := ((L.calc_chksum ^^^ 255) + 1) % 256 }
      if L1.record_data.rectyp = 1 then
        (IHEX_MESSAGE_END, L1, [])
      else if L1.calc_chksum ≠ L1.record_data.target_check_sum then
        (IHEX_MESSAGE_CHECK_SUM_ERROR, L1, [])
      else
        (IHEX_MESSAGE_CONTINUE, L1, [])

/-- `ihex_Lexer`: the per-character state machine.  Each digit-consuming
state first decrements `num_expected_characters` (a `uint16_t`, so 0 wraps
to 65535), then converts the character; on conversion failure it reports
invalid input with the counter already decremented, exactly as the C code
does. -/
def ihex_Lexer (funcData : Option ihex_tDataCallback) (L : ihex_tLexer)
    (data : Nat) : ihex_tMessage × ihex_tLexer × List (Nat × Nat) :=
  match L.state with
  | IHEX_LEXER_STATE_WAIT_COLON =>
      if data ≠ 58 then (IHEX_MESSAGE_CONTINUE, L, [])
      else
        let L1 := { L with record_data := { ihex_zeroRecordData with record_mark := data } }
        let r := ihex_LexerTokenStream funcData L1 IHEX_LEXER_TOKENTYPE_RECORD_MARK
          L1.record_data.record_mark
        (r.1, ihex_SetNextState r.2.1 IHEX_LEXER_STATE_WAIT_BYTE_COUNT 2, r.2.2)
  | IHEX_LEXER_STATE_WAIT_BYTE_COUNT =>
      let n := (L.num_expected_characters + 65535) % 65536
      let L1 := { L with num_expected_characters := n }
      match ihex_CharToValue data with
      | none => (IHEX_MESSAGE_INVALID_INPUT_DATA, L1, [])
      | some d =>
          let L2 := { L1 with record_data :=
            { L1.record_data with reclen :=
              (ihex_InsertDigit L1.record_data.reclen d n % 256) } }
          if n = 0 then
            let r := ihex_LexerTokenStream funcData L2 IHEX_LEXER_TOKENTYPE_RECLEN
              L2.record_data.reclen
            (r.1, ihex_SetNextState r.2.1 IHEX_LEXER_STATE_WAIT_ADDRESS 4, r.2.2)
          else (IHEX_MESSAGE_CONTINUE, L2, [])
  | IHEX_LEXER_STATE_WAIT_ADDRESS =>
      let n := (L.num_expected_characters + 65535) % 65536
      let L1 := { L with num_expected_characters := n }
      match ihex_CharToValue data with
      | none => (IHEX_MESSAGE_INVALID_INPUT_DATA, L1, [])
      | some d =>
          let L2 := { L1 with record_data :=
            { L1.record_data with load_offset :=
              (ihex_InsertDigit L1.record_data.load_offset d n) } }
          if n = 0 then
            let r := ihex_LexerTokenStream funcData L2 IHEX_LEXER_TOKENTYPE_LOAD_OFFSET
              L2.record_data.load_offset
            (r.1, ihex_SetNextState r.2.1 IHEX_LEXER_STATE_WAIT_TYPE 2, r.2.2)
          else (IHEX_MESSAGE_CONTINUE, L2, [])
  | IHEX_LEXER_STATE_WAIT_TYPE =>
      let n := (L.num_expected_characters + 65535) % 65536
      let L1 := { L with num_expected_characters := n }
      match ihex_CharToValue data with
      | none => (IHEX_MESSAGE_INVALID_INPUT_DATA, L1, [])
      | some d =>
          let L2 := { L1 with record_data :=
            { L1.record_data with rectyp :=
              (ihex_InsertDigit L1.record_data.rectyp d n % 256) } }
          if n = 0 then
            let r := ihex_LexerTokenStream funcData L2 IHEX_LEXER_TOKENTYPE_RECTYP
              L2.record_data.rectyp
            let L3 := { r.2.1 with record_data := { (r.2.1).record_data with data := 0 } }
            if 0 < L3.record_data.reclen then
              (r.1, ihex_SetNextState L3 IHEX_LEXER_STATE_WAIT_DATA
                (L3.record_data.reclen * 2), r.2.2)
            else
              (r.1, ihex_SetNextState L3 IHEX_LEXER_STATE_WAIT_CHECK_SUM 2, r.2.2)
          else (IHEX_MESSAGE_CONTINUE, L2, [])
  | IHEX_LEXER_STATE_WAIT_DATA =>
      let n := (L.num_expected_characters + 65535) % 65536
      let L1 := { L with num_expected_characters := n }
      match ihex_CharToValue data with
      | none => (IHEX_MESSAGE_INVALID_INPUT_DATA, L1, [])
      | some d =>
          let digit_pos := n % 2
          let L2 := { L1 with record_data :=
            { L1.record_data with data :=
              (ihex_InsertDigit L1.record_data.data d digit_pos % 256) } }
          let r :=
            if digit_pos = 0 then
              let r0 := ihex_LexerTokenStream funcData L2 IHEX_LEXER_TOKENTYPE_DATA
                L2.record_data.data
              (r0.1, { r0.2.1 with record_data := { (r0.2.1).record_data with data := 0 } }, r0.2.2)
            else (IHEX_MESSAGE_CONTINUE, L2, ([] : List (Nat × Nat)))
          if n = 0 then
            (r.1, ihex_SetNextState r.2.1 IHEX_LEXER_STATE_WAIT_CHECK_SUM 2, r.2.2)
          else (r.1, r.2.1, r.2.2)
  | IHEX_LEXER_STATE_WAIT_CHECK_SUM =>
      let n := (L.num_expected_characters + 65535) % 65536
      let L1 := { L with num_expected_characters := n }
      match ihex_CharToValue data with
      | none => (IHEX_MESSAGE_INVALID_INPUT_DATA, L1, [])
      | some d =>
          let L2 := { L1 with record_data :=
            { L1.record_data with target_check_sum :=
              (ihex_InsertDigit L1.record_data.target_check_sum d n % 256) } }
          if n = 0 then
            let r := ihex_LexerTokenStream funcData L2 IHEX_LEXER_TOKENTYPE_CHKSUM
              L2.record_data.target_check_sum
            (r.1, { r.2.1 with state := IHEX_LEXER_STATE_WAIT_COLON }, r.2.2)
          else (IHEX_MESSAGE_CONTINUE, L2, [])

/-- `ihex_Put`: the per-byte entry point.  CR and LF are ignored, invalid
characters are rejected before the lexer runs. -/
def ihex_Put (funcData : Option ihex_tDataCallback) (L : ihex_tLexer)
    (data : Nat) : ihex_tMessage × ihex_tLexer × List (Nat × Nat) :=
  if data = 10 then (IHEX_MESSAGE_CONTINUE, L, [])
  else if data = 13 then (IHEX_MESSAGE_CONTINUE, L, [])
  else if ¬ ihex_IsValidData data then (IHEX_MESSAGE_INVALID_INPUT_DATA, L, [])
  else ihex_Lexer funcData L data

/-- Feed a list of bytes one by one through `ihex_Put`, collecting the
per-byte messages and the concatenated callback trace. -/
def ihex_Run (funcData : Option ihex_tDataCallback) (L : ihex_tLexer) :
    List Nat → List ihex_tMessage × ihex_tLexer × List (Nat × Nat)
  | [] => ([], L, [])
  | b :: rest =>
      let r := ihex_Put funcData L b
      let s := ihex_Run funcData r.2.1 rest
      (r.1 :: s.1, s.2.1, r.2.2 ++ s.2.2)

/-- A zero-initialised lexer, standing for a freshly allocated reader. -/
def ihex_lexer0 : ihex_tLexer :=
  { state := IHEX_LEXER_STATE_WAIT_COLON, num_expected_characters := 0,
    ext_offset_byte_pos := 0, ext_offset := 0, rec_byte_offset := 0,
    calc_chksum := 0, record_data := ihex_zeroRecordData }

/-- Byte values of a string (ASCII). -/
def strBytes (s : String) : List Nat := s.data.map Char.toNat

/-- A data callback that always answers `Continue`. -/
def cbContinue : ihex_tDataCallback := fun _ _ => IHEX_MESSAGE_CONTINUE

/-! ### Encoding of records

An Intel HEX record line for declared length `len`, load offset `off`,
record type `ty`, payload bytes `payload` and trailing checksum byte `chk`,
written with uppercase hex digits. -/

/-- ASCII code of the hex digit for a nibble (uppercase). -/
def hexDigitChar (n : Nat) : Nat := if n < 10 then 48 + n else 55 + n

/-- Two hex digit characters of a byte, most significant first. -/
def encodeByte (b : Nat) : List Nat := [hexDigitChar (b / 16), hexDigitChar (b % 16)]

/-- Four hex digit characters of a 16-bit word, most significant first. -/
def encodeWord16 (w : Nat) : List Nat := encodeByte (w / 256) ++ encodeByte (w % 256)

/-- The hex digit characters of a payload byte list. -/
def payloadChars (payload : List Nat) : List Nat := payload.flatMap encodeByte

/-- The full character list of a record line. -/
def encodeRecord (len off ty : Nat) (payload : List Nat) (chk : Nat) : List Nat :=
  58 :: (encodeByte len ++ encodeWord16 off ++ encodeByte ty
    ++ payloadChars payload ++ encodeByte chk)

/-- The mod-256 sum of the decoded field bytes of a record: length, both
address bytes, type, and every payload byte. -/
def ihex_recordSum (len off ty : Nat) (payload : List Nat) : Nat :=
  (len + (off / 256 + off % 256) + ty + payload.sum) % 256

/-- Two's complement of an 8-bit value: bitwise negate plus one, truncated
to 8 bits (for c < 256). -/
def twosComplement8 (c : Nat) : Nat := ((c ^^^ 255) + 1) % 256

/-- The message a type-00 payload byte dispatch produces: the callback's
answer, or `Continue` when no callback is installed. -/
def dataCallMsg (cb : Option ihex_tDataCallback) (addr b : Nat) : ihex_tMessage :=
  match cb with
  | none => IHEX_MESSAGE_CONTINUE
  | some f => f addr b

/-- The trace a type-00 payload byte dispatch produces. -/
def dataCallTrace (cb : Option ihex_tDataCallback) (addr b : Nat) : List (Nat × Nat) :=
  match cb with
  | none => []
  | some _ => [(addr, b)]

/-- Expected per-character messages of the payload phase: each byte produces
`Continue` for its first digit and, for its second digit, the callback's
answer (type 00) or `Continue` (other types). -/
def dataMsgs (cb : Option ihex_tDataCallback) (ty ext off : Nat) :
    Nat → List Nat → List ihex_tMessage
  | _, [] => []
  | rbo, b :: rest =>
      IHEX_MESSAGE_CONTINUE ::
        (if ty = 0 then dataCallMsg cb ((ext + off + rbo) % 4294967296) b
          else IHEX_MESSAGE_CONTINUE) ::
        dataMsgs cb ty ext off (rbo + 1) rest

/-- Expected callback trace of the payload phase. -/
def dataTrace (cb : Option ihex_tDataCallback) (ty ext off : Nat) :
    Nat → List Nat → List (Nat × Nat)
  | _, [] => []
  | rbo, b :: rest =>
      (if ty = 0 then dataCallTrace cb ((ext + off + rbo) % 4294967296) b else [])
        ++ dataTrace cb ty ext off (rbo + 1) rest

/-! ### Step lemmas for one record, in continuation style -/

/-- The lexer state reached after the record mark `:` is consumed. -/
def lexerAfterMark (L : ihex_tLexer) : ihex_tLexer :=
  { L with state := IHEX_LEXER_STATE_WAIT_BYTE_COUNT, num_expected_characters := 2,
           rec_byte_offset := 0, calc_chksum := 0,
           record_data := { ihex_zeroRecordData with record_mark := 58 } }

/-- The lexer state reached after both length digits are consumed. -/
def lexerAfterLen (L : ihex_tLexer) (len : Nat) : ihex_tLexer :=
  { L with state := IHEX_LEXER_STATE_WAIT_ADDRESS, num_expected_characters := 4,
           calc_chksum := (L.calc_chksum + len) % 256,
           record_data := { L.record_data with reclen := len } }

/-- The lexer state reached after all four load-offset digits are consumed. -/
def lexerAfterAddr (L : ihex_tLexer) (off : Nat) : ihex_tLexer :=
  { L with state := IHEX_LEXER_STATE_WAIT_TYPE, num_expected_characters := 2,
           calc_chksum := (L.calc_chksum + (off / 256 + off % 256)) % 256,
           record_data := { L.record_data with load_offset := off } }

/-- The lexer state reached after both record-type digits are consumed:
checksum accumulates the type, a type-02 or type-04 record initialises the
extension accumulator, and the machine moves to the payload phase (or
directly to the checksum phase for an empty payload). -/
def lexerAfterType (L : ihex_tLexer) (ty : Nat) : ihex_tLexer :=
  { L with
    state := if 0 < L.record_data.reclen then IHEX_LEXER_STATE_WAIT_DATA
      else IHEX_LEXER_STATE_WAIT_CHECK_SUM,
    num_expected_characters :=
      if 0 < L.record_data.reclen then L.record_data.reclen * 2 else 2,
    calc_chksum := (L.calc_chksum + ty) % 256,
    ext_offset := if ty = 2 ∨ ty = 4 then 0 else L.ext_offset,
    ext_offset_byte_pos :=
      if ty = 2 then 1 else if ty = 4 then 3 else L.ext_offset_byte_pos,
    record_data := { L.record_data with rectyp := ty, data := 0 } }

/-- The lexer state reached after both checksum digits are consumed: the
running checksum is finalised (two's complement), the target checksum is
stored, and the machine returns to `WAIT_COLON`. -/
def lexerAfterChk (L : ihex_tLexer) (chk : Nat) : ihex_tLexer :=
  { L with state := IHEX_LEXER_STATE_WAIT_COLON,
           num_expected_characters := 0,
           calc_chksum := ((L.calc_chksum ^^^ 255) + 1) % 256,
           record_data := { L.record_data with target_check_sum := chk } }

/-- The message of the `ihex_Put` call that consumes the final checksum
digit: `End` for a type-01 record, otherwise `ChecksumError` on mismatch and
`Continue` on match. -/
def chkMsg (L : ihex_tLexer) (chk : Nat) : ihex_tMessage :=
  if L.record_data.rectyp = 1 then IHEX_MESSAGE_END
  else if ((L.calc_chksum ^^^ 255) + 1) % 256 ≠ chk then IHEX_MESSAGE_CHECK_SUM_ERROR
  else IHEX_MESSAGE_CONTINUE

/-- Effect of one completed payload byte on `ext_offset` (the DATA-token
branches of `ihex_LexerTokenStream` for record types 02 and 04; other types
leave it unchanged). -/
def extStepOffset (ty pos ext b : Nat) : Nat :=
  if ty = 2 then
    let e := (ext ||| (b <<< (8 * pos))) % 4294967296
    if pos = 0 then (e <<< 4) % 4294967296 else e
  else if ty = 4 then (ext ||| (b <<< (8 * pos))) % 4294967296
  else ext

/-- Effect of one completed payload byte on `ext_offset_byte_pos`. -/
def extStepPos (ty pos : Nat) : Nat :=
  if ty = 2 ∨ ty = 4 then (pos + 255) % 256 else pos

/-- The message produced by the `ihex_Put` call completing one payload byte. -/
def dataByteMsg (cb : Option ihex_tDataCallback) (L : ihex_tLexer) (b : Nat) :
    ihex_tMessage :=
  if L.record_data.rectyp = 0 then
    dataCallMsg cb ((L.ext_offset + L.record_data.load_offset
      + L.rec_byte_offset) % 4294967296) b
  else IHEX_MESSAGE_CONTINUE

/-- The callback trace produced by the `ihex_Put` call completing one
payload byte. -/
def dataByteTrace (cb : Option ihex_tDataCallback) (L : ihex_tLexer) (b : Nat) :
    List (Nat × Nat) :=
  if L.record_data.rectyp = 0 then
    dataCallTrace cb ((L.ext_offset + L.record_data.load_offset
      + L.rec_byte_offset) % 4294967296) b
  else []

/-- The lexer state after one payload byte (two digits) is consumed. -/
def lexerAfterDataByte (L : ihex_tLexer) (b : Nat) : ihex_tLexer :=
  { L with
    state := if L.num_expected_characters = 2 then IHEX_LEXER_STATE_WAIT_CHECK_SUM
      else L.state,
    num_expected_characters :=
      if L.num_expected_characters = 2 then 2 else L.num_expected_characters - 2,
    calc_chksum := (L.calc_chksum + b) % 256,
    rec_byte_offset := (L.rec_byte_offset + 1) % 65536,
    ext_offset := extStepOffset L.record_data.rectyp L.ext_offset_byte_pos
      L.ext_offset b,
    ext_offset_byte_pos := extStepPos L.record_data.rectyp L.ext_offset_byte_pos,
    record_data := { L.record_data with data := 0 } }

/-- The lexer state after the whole payload phase: the checksum has absorbed
every payload byte, the byte index advanced by the payload length, the
machine awaits the two checksum digits.  `E` and `P` stand for the final
extension accumulator fields. -/
def lexerAfterData (L : ihex_tLexer) (payload : List Nat) (E P : Nat) :
    ihex_tLexer :=
  { L with
    state := IHEX_LEXER_STATE_WAIT_CHECK_SUM,
    num_expected_characters := 2,
    calc_chksum := (L.calc_chksum + payload.sum) % 256,
    rec_byte_offset := L.rec_byte_offset + payload.length,
    ext_offset := E,
    ext_offset_byte_pos := P,
    record_data := { L.record_data with data := 0 } }

/-- The final lexer state after one complete record line. -/
def lexerAfterRecord (len off ty chk E P rbo : Nat)
    (payload : List Nat) : ihex_tLexer :=
  { state := IHEX_LEXER_STATE_WAIT_COLON,
    num_expected_characters := 0,
    ext_offset_byte_pos := P,
    ext_offset := E,
    rec_byte_offset := rbo,
    calc_chksum := ((ihex_recordSum len off ty payload ^^^ 255) + 1) % 256,
    record_data := { record_mark := 58, reclen := len, load_offset := off,
                     rectyp := ty, data := 0, target_check_sum := chk } }

/-- The message of the final `ihex_Put` call of a complete record line. -/
def recordFinalMsg (len off ty chk : Nat) (payload : List Nat) : ihex_tMessage :=
  if ty = 1 then IHEX_MESSAGE_END
  else if ((ihex_recordSum len off ty payload ^^^ 255) + 1) % 256 ≠ chk then
    IHEX_MESSAGE_CHECK_SUM_ERROR
  else IHEX_MESSAGE_CONTINUE

/-- The input of the no-rollback scenario: a type-04 extension record whose
checksum field (00) is wrong, a type-00 record at loadOffset 0x0010 with
byte 0x55, and a type-00 record at loadOffset 0 whose checksum field (00)
is wrong. -/
def c9_input : List Nat := strBytes ":02000004FFFF00:01001000559A:010000005500"

/-! ### Character-level facts -/

theorem ihex_CharToValue_hexDigitChar : ∀ d < 16, ihex_CharToValue (hexDigitChar d) = some d := by
  decide

theorem ihex_IsValidData_hexDigitChar : ∀ d < 16, ihex_IsValidData (hexDigitChar d) = true := by
  decide

theorem hexDigitChar_ne : ∀ d < 16, hexDigitChar d ≠ 10 ∧ hexDigitChar d ≠ 13 := by
  decide

/-- For a hex digit character, `ihex_Put` reduces to `ihex_Lexer`. -/
theorem ihex_Put_hexDigitChar (cb : Option ihex_tDataCallback) (L : ihex_tLexer)
    {d : Nat} (hd : d < 16) :
    ihex_Put cb L (hexDigitChar d) = ihex_Lexer cb L (hexDigitChar d) := by
  have h := hexDigitChar_ne d hd
  have hv := ihex_IsValidData_hexDigitChar d hd
  simp [ihex_Put, h.1, h.2, hv]

/-! ### `ihex_InsertDigit` nibble facts (finite-domain, settled by `decide`) -/

theorem ihex_InsertDigit_pos3 : ∀ d3 < 16, ihex_InsertDigit 0 d3 3 = 4096 * d3 := by decide

theorem ihex_InsertDigit_pos2 : ∀ d3 < 16, ∀ d2 < 16,
    ihex_InsertDigit (4096 * d3) d2 2 = 4096 * d3 + 256 * d2 := by decide

theorem ihex_InsertDigit_pos1 : ∀ d3 < 16, ∀ d2 < 16, ∀ d1 < 16,
    ihex_InsertDigit (4096 * d3 + 256 * d2) d1 1 = 4096 * d3 + 256 * d2 + 16 * d1 := by decide

set_option maxHeartbeats 3000000 in
theorem ihex_InsertDigit_pos0 : ∀ d3 < 16, ∀ d2 < 16, ∀ d1 < 16, ∀ d0 < 16,
    ihex_InsertDigit (4096 * d3 + 256 * d2 + 16 * d1) d0 0
      = 4096 * d3 + 256 * d2 + 16 * d1 + d0 := by decide

theorem ihex_Run_mark (cb : Option ihex_tDataCallback) (L : ihex_tLexer)
    (rest : List Nat) (hs : L.state = IHEX_LEXER_STATE_WAIT_COLON) :
    ihex_Run cb L (58 :: rest) =
      (IHEX_MESSAGE_CONTINUE :: (ihex_Run cb (lexerAfterMark L) rest).1,
        (ihex_Run cb (lexerAfterMark L) rest).2.1,
        (ihex_Run cb (lexerAfterMark L) rest).2.2) := by
  simp [ihex_Run, ihex_Put, ihex_IsValidData, ihex_Lexer, hs, ihex_LexerTokenStream,
    ihex_SetNextState, lexerAfterMark, ihex_zeroRecordData]

theorem ihex_Run_reclen (cb : Option ihex_tDataCallback) (L : ihex_tLexer)
    (rest : List Nat) (len : Nat) (hs : L.state = IHEX_LEXER_STATE_WAIT_BYTE_COUNT)
    (hn : L.num_expected_characters = 2) (h0 : L.record_data.reclen = 0)
    (hlen : len < 256) :
    ihex_Run cb L (encodeByte len ++ rest) =
      (IHEX_MESSAGE_CONTINUE :: IHEX_MESSAGE_CONTINUE ::
          (ihex_Run cb (lexerAfterLen L len) rest).1,
        (ihex_Run cb (lexerAfterLen L len) rest).2.1,
        (ihex_Run cb (lexerAfterLen L len) rest).2.2) := by
  have hd1 : len / 16 < 16 := by omega
  have hd2 : len % 16 < 16 := by omega
  have e1 : ihex_InsertDigit 0 (len / 16) 1 = 16 * (len / 16) := by
    have := ihex_InsertDigit_pos1 0 (by omega) 0 (by omega) (len / 16) hd1
    simpa using this
  have e2 : ihex_InsertDigit (16 * (len / 16)) (len % 16) 0 = len := by
    have := ihex_InsertDigit_pos0 0 (by omega) 0 (by omega) (len / 16) hd1 (len % 16) hd2
    simp at this
    omega
  have em : 16 * (len / 16) % 256 = 16 * (len / 16) := Nat.mod_eq_of_lt (by omega)
  have s1 : ihex_Put cb L (hexDigitChar (len / 16)) =
      (IHEX_MESSAGE_CONTINUE,
        { L with num_expected_characters := 1,
                 record_data := { L.record_data with reclen := 16 * (len / 16) } }, []) := by
    rw [ihex_Put_hexDigitChar _ _ hd1]
    simp [ihex_Lexer, hs, hn, ihex_CharToValue_hexDigitChar _ hd1, h0, e1, em]
  have s2 : ihex_Put cb
      { L with num_expected_characters := 1,
               record_data := { L.record_data with reclen := 16 * (len / 16) } }
      (hexDigitChar (len % 16)) =
      (IHEX_MESSAGE_CONTINUE, lexerAfterLen L len, []) := by
    rw [ihex_Put_hexDigitChar _ _ hd2]
    simp only [ihex_Lexer, hs, ihex_CharToValue_hexDigitChar _ hd2]
    norm_num [e2, Nat.mod_eq_of_lt hlen, ihex_LexerTokenStream, ihex_SetNextState,
      lexerAfterLen]
  simp [encodeByte, ihex_Run, s1, s2]

theorem ihex_Run_addr (cb : Option ihex_tDataCallback) (L : ihex_tLexer)
    (rest : List Nat) (off : Nat) (hs : L.state = IHEX_LEXER_STATE_WAIT_ADDRESS)
    (hn : L.num_expected_characters = 4) (h0 : L.record_data.load_offset = 0)
    (hoff : off < 65536) :
    ihex_Run cb L (encodeWord16 off ++ rest) =
      (IHEX_MESSAGE_CONTINUE :: IHEX_MESSAGE_CONTINUE :: IHEX_MESSAGE_CONTINUE ::
          IHEX_MESSAGE_CONTINUE :: (ihex_Run cb (lexerAfterAddr L off) rest).1,
        (ihex_Run cb (lexerAfterAddr L off) rest).2.1,
        (ihex_Run cb (lexerAfterAddr L off) rest).2.2) := by
  have hd3 : off / 256 / 16 < 16 := by omega
  have hd2 : off / 256 % 16 < 16 := by omega
  have hd1 : off % 256 / 16 < 16 := by omega
  have hd0 : off % 256 % 16 < 16 := by omega
  have e3 : ihex_InsertDigit 0 (off / 256 / 16) 3 = 4096 * (off / 256 / 16) :=
    ihex_InsertDigit_pos3 _ hd3
  have e2 : ihex_InsertDigit (4096 * (off / 256 / 16)) (off / 256 % 16) 2
      = 4096 * (off / 256 / 16) + 256 * (off / 256 % 16) :=
    ihex_InsertDigit_pos2 _ hd3 _ hd2
  have e1 : ihex_InsertDigit (4096 * (off / 256 / 16) + 256 * (off / 256 % 16))
      (off % 256 / 16) 1
      = 4096 * (off / 256 / 16) + 256 * (off / 256 % 16) + 16 * (off % 256 / 16) :=
    ihex_InsertDigit_pos1 _ hd3 _ hd2 _ hd1
  have hd0a : off % 16 < 16 := by omega
  have e0 : ihex_InsertDigit
      (4096 * (off / 256 / 16) + 256 * (off / 256 % 16) + 16 * (off % 256 / 16))
      (off % 16) 0 = off := by
    have := ihex_InsertDigit_pos0 _ hd3 _ hd2 _ hd1 _ hd0a
    omega
  have s1 : ihex_Put cb L (hexDigitChar (off / 256 / 16)) =
      (IHEX_MESSAGE_CONTINUE,
        { L with num_expected_characters := 3,
                 record_data := { L.record_data with
                   load_offset := 4096 * (off / 256 / 16) } }, []) := by
    rw [ihex_Put_hexDigitChar _ _ hd3]
    simp only [ihex_Lexer, hs, hn, ihex_CharToValue_hexDigitChar _ hd3]
    norm_num [h0, e3]
  have s2 : ihex_Put cb
      { L with num_expected_characters := 3,
               record_data := { L.record_data with load_offset := 4096 * (off / 256 / 16) } }
      (hexDigitChar (off / 256 % 16)) =
      (IHEX_MESSAGE_CONTINUE,
        { L with num_expected_characters := 2,
                 record_data := { L.record_data with
                   load_offset := 4096 * (off / 256 / 16) + 256 * (off / 256 % 16) } }, []) := by
    rw [ihex_Put_hexDigitChar _ _ hd2]
    simp only [ihex_Lexer, hs, ihex_CharToValue_hexDigitChar _ hd2]
    norm_num [e2]
  have s3 : ihex_Put cb
      { L with num_expected_characters := 2,
               record_data := { L.record_data with
                 load_offset := 4096 * (off / 256 / 16) + 256 * (off / 256 % 16) } }
      (hexDigitChar (off % 256 / 16)) =
      (IHEX_MESSAGE_CONTINUE,
        { L with num_expected_characters := 1,
                 record_data := { L.record_data with
                   load_offset := 4096 * (off / 256 / 16) + 256 * (off / 256 % 16)
                     + 16 * (off % 256 / 16) } }, []) := by
    rw [ihex_Put_hexDigitChar _ _ hd1]
    simp only [ihex_Lexer, hs, ihex_CharToValue_hexDigitChar _ hd1]
    norm_num [e1]
  have s4 : ihex_Put cb
      { L with num_expected_characters := 1,
               record_data := { L.record_data with
                 load_offset := 4096 * (off / 256 / 16) + 256 * (off / 256 % 16)
                   + 16 * (off % 256 / 16) } }
      (hexDigitChar (off % 256 % 16)) =
      (IHEX_MESSAGE_CONTINUE, lexerAfterAddr L off, []) := by
    rw [ihex_Put_hexDigitChar _ _ hd0]
    simp only [ihex_Lexer, hs, ihex_CharToValue_hexDigitChar _ hd0]
    norm_num [e0, ihex_LexerTokenStream, ihex_SetNextState, lexerAfterAddr]
  simp [encodeWord16, encodeByte, ihex_Run, s1, s2, s3, s4]

theorem ihex_Run_rectyp (cb : Option ihex_tDataCallback) (L : ihex_tLexer)
    (rest : List Nat) (ty : Nat) (hs : L.state = IHEX_LEXER_STATE_WAIT_TYPE)
    (hn : L.num_expected_characters = 2) (h0 : L.record_data.rectyp = 0)
    (hty : ty < 256) :
    ihex_Run cb L (encodeByte ty ++ rest) =
      (IHEX_MESSAGE_CONTINUE :: IHEX_MESSAGE_CONTINUE ::
          (ihex_Run cb (lexerAfterType L ty) rest).1,
        (ihex_Run cb (lexerAfterType L ty) rest).2.1,
        (ihex_Run cb (lexerAfterType L ty) rest).2.2) := by
  have hd1 : ty / 16 < 16 := by omega
  have hd0 : ty % 16 < 16 := by omega
  have e1 : ihex_InsertDigit 0 (ty / 16) 1 = 16 * (ty / 16) := by
    have := ihex_InsertDigit_pos1 0 (by omega) 0 (by omega) (ty / 16) hd1
    simpa using this
  have e0 : ihex_InsertDigit (16 * (ty / 16)) (ty % 16) 0 = ty := by
    have := ihex_InsertDigit_pos0 0 (by omega) 0 (by omega) (ty / 16) hd1 (ty % 16) hd0
    simp at this
    omega
  have em : 16 * (ty / 16) % 256 = 16 * (ty / 16) := Nat.mod_eq_of_lt (by omega)
  have s1 : ihex_Put cb L (hexDigitChar (ty / 16)) =
      (IHEX_MESSAGE_CONTINUE,
        { L with num_expected_characters := 1,
                 record_data := { L.record_data with rectyp := 16 * (ty / 16) } }, []) := by
    rw [ihex_Put_hexDigitChar _ _ hd1]
    simp only [ihex_Lexer, hs, hn, ihex_CharToValue_hexDigitChar _ hd1]
    norm_num [h0, e1, em]
  have s2 : ihex_Put cb
      { L with num_expected_characters := 1,
               record_data := { L.record_data with rectyp := 16 * (ty / 16) } }
      (hexDigitChar (ty % 16)) =
      (IHEX_MESSAGE_CONTINUE, lexerAfterType L ty, []) := by
    rw [ihex_Put_hexDigitChar _ _ hd0]
    simp only [ihex_Lexer, hs, ihex_CharToValue_hexDigitChar _ hd0]
    norm_num [e0, Nat.mod_eq_of_lt hty, ihex_LexerTokenStream, ihex_SetNextState,
      lexerAfterType]
    split_ifs <;> simp_all
  simp [encodeByte, ihex_Run, s1, s2]

theorem ihex_Run_chksum (cb : Option ihex_tDataCallback) (L : ihex_tLexer)
    (rest : List Nat) (chk : Nat) (hs : L.state = IHEX_LEXER_STATE_WAIT_CHECK_SUM)
    (hn : L.num_expected_characters = 2) (h0 : L.record_data.target_check_sum = 0)
    (hchk : chk < 256) :
    ihex_Run cb L (encodeByte chk ++ rest) =
      (IHEX_MESSAGE_CONTINUE :: chkMsg L chk ::
          (ihex_Run cb (lexerAfterChk L chk) rest).1,
        (ihex_Run cb (lexerAfterChk L chk) rest).2.1,
        (ihex_Run cb (lexerAfterChk L chk) rest).2.2) := by
  have hd1 : chk / 16 < 16 := by omega
  have hd0 : chk % 16 < 16 := by omega
  have e1 : ihex_InsertDigit 0 (chk / 16) 1 = 16 * (chk / 16) := by
    have := ihex_InsertDigit_pos1 0 (by omega) 0 (by omega) (chk / 16) hd1
    simpa using this
  have e0 : ihex_InsertDigit (16 * (chk / 16)) (chk % 16) 0 = chk := by
    have := ihex_InsertDigit_pos0 0 (by omega) 0 (by omega) (chk / 16) hd1 (chk % 16) hd0
    simp at this
    omega
  have em : 16 * (chk / 16) % 256 = 16 * (chk / 16) := Nat.mod_eq_of_lt (by omega)
  have s1 : ihex_Put cb L (hexDigitChar (chk / 16)) =
      (IHEX_MESSAGE_CONTINUE,
        { L with num_expected_characters := 1,
                 record_data := { L.record_data with
                   target_check_sum := 16 * (chk / 16) } }, []) := by
    rw [ihex_Put_hexDigitChar _ _ hd1]
    simp only [ihex_Lexer, hs, hn, ihex_CharToValue_hexDigitChar _ hd1]
    norm_num [h0, e1, em]
  have s2 : ihex_Put cb
      { L with num_expected_characters := 1,
               record_data := { L.record_data with target_check_sum := 16 * (chk / 16) } }
      (hexDigitChar (chk % 16)) =
      (chkMsg L chk, lexerAfterChk L chk, []) := by
    rw [ihex_Put_hexDigitChar _ _ hd0]
    simp only [ihex_Lexer, hs, ihex_CharToValue_hexDigitChar _ hd0]
    norm_num [e0, Nat.mod_eq_of_lt hchk, ihex_LexerTokenStream, lexerAfterChk, chkMsg]
    split_ifs <;> simp_all
  simp [encodeByte, ihex_Run, s1, s2]

/-- One DATA token of `ihex_LexerTokenStream`, described through
`extStepOffset`, `extStepPos`, `dataCallMsg` and `dataCallTrace`. -/
theorem ihex_LexerTokenStream_data (cb : Option ihex_tDataCallback)
    (LL : ihex_tLexer) (b : Nat) :
    ihex_LexerTokenStream cb LL IHEX_LEXER_TOKENTYPE_DATA b =
      ((if LL.record_data.rectyp = 0 then
          dataCallMsg cb ((LL.ext_offset + LL.record_data.load_offset
            + LL.rec_byte_offset) % 4294967296) b
        else IHEX_MESSAGE_CONTINUE),
        { LL with
            calc_chksum := (LL.calc_chksum + b) % 256,
            rec_byte_offset := (LL.rec_byte_offset + 1) % 65536,
            ext_offset := extStepOffset LL.record_data.rectyp
              LL.ext_offset_byte_pos LL.ext_offset b,
            ext_offset_byte_pos := extStepPos LL.record_data.rectyp
              LL.ext_offset_byte_pos },
        if LL.record_data.rectyp = 0 then
          dataCallTrace cb ((LL.ext_offset + LL.record_data.load_offset
            + LL.rec_byte_offset) % 4294967296) b
        else []) := by
  simp only [ihex_LexerTokenStream, extStepOffset, extStepPos, dataCallMsg,
    dataCallTrace]
  rcases cb with _ | f <;> split_ifs <;> simp_all

theorem ihex_Run_dataByte (cb : Option ihex_tDataCallback) (L : ihex_tLexer)
    (rest : List Nat) (b k : Nat) (hs : L.state = IHEX_LEXER_STATE_WAIT_DATA)
    (hn : L.num_expected_characters = 2 * k) (hk1 : 1 ≤ k) (hk : k ≤ 255)
    (h0 : L.record_data.data = 0) (hb : b < 256) :
    ihex_Run cb L (encodeByte b ++ rest) =
      (IHEX_MESSAGE_CONTINUE :: dataByteMsg cb L b ::
          (ihex_Run cb (lexerAfterDataByte L b) rest).1,
        (ihex_Run cb (lexerAfterDataByte L b) rest).2.1,
        dataByteTrace cb L b ++ (ihex_Run cb (lexerAfterDataByte L b) rest).2.2) := by
  have hd1 : b / 16 < 16 := by omega
  have hd0 : b % 16 < 16 := by omega
  have ha1 : (2 * k + 65535) % 65536 = 2 * k - 1 := by omega
  have hp1 : (2 * k - 1) % 2 = 1 := by omega
  have hn1 : ¬(2 * k - 1 = 0) := by omega
  have ha2 : (2 * k - 1 + 65535) % 65536 = 2 * k - 2 := by omega
  have hp0 : (2 * k - 2) % 2 = 0 := by omega
  have e1 : ihex_InsertDigit 0 (b / 16) 1 = 16 * (b / 16) := by
    have := ihex_InsertDigit_pos1 0 (by omega) 0 (by omega) (b / 16) hd1
    simpa using this
  have e0 : ihex_InsertDigit (16 * (b / 16)) (b % 16) 0 = b := by
    have := ihex_InsertDigit_pos0 0 (by omega) 0 (by omega) (b / 16) hd1 (b % 16) hd0
    simp at this
    omega
  have em : 16 * (b / 16) % 256 = 16 * (b / 16) := Nat.mod_eq_of_lt (by omega)
  have s1 : ihex_Put cb L (hexDigitChar (b / 16)) =
      (IHEX_MESSAGE_CONTINUE,
        { L with num_expected_characters := 2 * k - 1,
                 record_data := { L.record_data with data := 16 * (b / 16) } }, []) := by
    rw [ihex_Put_hexDigitChar _ _ hd1]
    simp only [ihex_Lexer, hs, hn, ihex_CharToValue_hexDigitChar _ hd1, ha1, hp1]
    norm_num [h0, e1, em, hn1]
  have s2 : ihex_Put cb
      { L with num_expected_characters := 2 * k - 1,
               record_data := { L.record_data with data := 16 * (b / 16) } }
      (hexDigitChar (b % 16)) =
      (dataByteMsg cb L b, lexerAfterDataByte L b, dataByteTrace cb L b) := by
    rw [ihex_Put_hexDigitChar _ _ hd0]
    simp only [ihex_Lexer, hs, ihex_CharToValue_hexDigitChar _ hd0, ha2, hp0]
    norm_num [e0, Nat.mod_eq_of_lt hb, ihex_LexerTokenStream_data, ihex_SetNextState,
      lexerAfterDataByte, dataByteMsg, dataByteTrace, hn]
    by_cases hke : k = 1 <;> split_ifs <;> simp_all <;> omega
  simp [encodeByte, ihex_Run, s1, s2]

/-- For non-type-00 records the payload-phase messages do not depend on the
extension offset. -/
theorem dataMsgs_ext_congr (cb : Option ihex_tDataCallback) (ty e e2 off : Nat)
    (h : ty ≠ 0) (l : List Nat) : ∀ rbo,
    dataMsgs cb ty e off rbo l = dataMsgs cb ty e2 off rbo l := by
  induction l with
  | nil => intro rbo; rfl
  | cons b t ih => intro rbo; simp [dataMsgs, h, ih]

/-- For non-type-00 records the payload-phase trace does not depend on the
extension offset. -/
theorem dataTrace_ext_congr (cb : Option ihex_tDataCallback) (ty e e2 off : Nat)
    (h : ty ≠ 0) (l : List Nat) : ∀ rbo,
    dataTrace cb ty e off rbo l = dataTrace cb ty e2 off rbo l := by
  induction l with
  | nil => intro rbo; rfl
  | cons b t ih => intro rbo; simp [dataTrace, h, ih]

theorem ihex_Run_dataPhase (cb : Option ihex_tDataCallback) (payload : List Nat) :
    ∀ (L : ihex_tLexer) (rest : List Nat),
      L.state = IHEX_LEXER_STATE_WAIT_DATA →
      L.num_expected_characters = 2 * payload.length →
      1 ≤ payload.length → payload.length ≤ 255 →
      L.record_data.data = 0 →
      (∀ b ∈ payload, b < 256) →
      L.rec_byte_offset + payload.length < 65536 →
      ∃ E P,
        ihex_Run cb L (payloadChars payload ++ rest) =
          (dataMsgs cb L.record_data.rectyp L.ext_offset L.record_data.load_offset
              L.rec_byte_offset payload
            ++ (ihex_Run cb (lexerAfterData L payload E P) rest).1,
          (ihex_Run cb (lexerAfterData L payload E P) rest).2.1,
          dataTrace cb L.record_data.rectyp L.ext_offset L.record_data.load_offset
              L.rec_byte_offset payload
            ++ (ihex_Run cb (lexerAfterData L payload E P) rest).2.2) := by
  induction payload with
  | nil =>
      intro L rest hs hn h1 h255 hdata hbytes hrb
      simp at h1
  | cons b t ih =>
      intro L rest hs hn h1 h255 hdata hbytes hrb
      have hb : b < 256 := hbytes b (by simp)
      have hpc : payloadChars (b :: t) ++ rest
          = encodeByte b ++ (payloadChars t ++ rest) := by
        simp [payloadChars]
      rw [hpc, ihex_Run_dataByte cb L (payloadChars t ++ rest) b (t.length + 1) hs
        (by simpa using hn) (by omega) (by simpa using h255) hdata hb]
      rcases t with _ | ⟨c, u⟩
      · -- single-byte payload: the byte step lands in the checksum state
        refine ⟨extStepOffset L.record_data.rectyp L.ext_offset_byte_pos
          L.ext_offset b, extStepPos L.record_data.rectyp L.ext_offset_byte_pos, ?_⟩
        have hL : lexerAfterDataByte L b = lexerAfterData L [b]
            (extStepOffset L.record_data.rectyp L.ext_offset_byte_pos L.ext_offset b)
            (extStepPos L.record_data.rectyp L.ext_offset_byte_pos) := by
          simp only [lexerAfterDataByte, lexerAfterData, hn]
          simp
          omega
        rw [hL]
        simp [dataMsgs, dataTrace, dataByteMsg, dataByteTrace, payloadChars]
      · -- at least one byte follows
        have hL' : (lexerAfterDataByte L b).state = IHEX_LEXER_STATE_WAIT_DATA := by
          have h2 : ¬(2 * (c :: u).length.succ = 2) := by simp
          simp_all [lexerAfterDataByte, hn, hs]
        have hnum : (lexerAfterDataByte L b).num_expected_characters
            = 2 * (c :: u).length := by
          have h2 : ¬(2 * (c :: u).length.succ = 2) := by simp
          simp_all [lexerAfterDataByte, hn]
          omega
        have hdat : (lexerAfterDataByte L b).record_data.data = 0 := by
          simp [lexerAfterDataByte]
        have hby : ∀ x ∈ (c :: u), x < 256 := by
          intro x hx; exact hbytes x (by simp [hx])
        have hrb1 : (lexerAfterDataByte L b).rec_byte_offset + (c :: u).length < 65536 := by
          simp only [lexerAfterDataByte]
          have : (L.rec_byte_offset + 1) % 65536 = L.rec_byte_offset + 1 := by
            apply Nat.mod_eq_of_lt; simp at hrb; omega
          rw [this]; simp at hrb ⊢; omega
        obtain ⟨E, P, hrun⟩ := ih (lexerAfterDataByte L b) rest hL' hnum (by simp)
          (by simp at h255 ⊢; omega) hdat hby hrb1
        refine ⟨E, P, ?_⟩
        rw [hrun]
        have hrbo : (lexerAfterDataByte L b).rec_byte_offset = L.rec_byte_offset + 1 := by
          simp only [lexerAfterDataByte]
          apply Nat.mod_eq_of_lt; simp at hrb; omega
        have hty : (lexerAfterDataByte L b).record_data.rectyp = L.record_data.rectyp := by
          simp [lexerAfterDataByte]
        have hoff : (lexerAfterDataByte L b).record_data.load_offset
            = L.record_data.load_offset := by
          simp [lexerAfterDataByte]
        have hLfinal : lexerAfterData (lexerAfterDataByte L b) (c :: u) E P
            = lexerAfterData L (b :: c :: u) E P := by
          have hm : (L.rec_byte_offset + 1) % 65536 = L.rec_byte_offset + 1 := by
            apply Nat.mod_eq_of_lt; simp at hrb; omega
          simp only [lexerAfterData, lexerAfterDataByte, hm]
          simp [ihex_tLexer.mk.injEq, ihex_tRecordData.mk.injEq]
          refine ⟨by omega, by omega⟩
        have htail : dataMsgs cb L.record_data.rectyp (lexerAfterDataByte L b).ext_offset
            L.record_data.load_offset (L.rec_byte_offset + 1) (c :: u)
            = dataMsgs cb L.record_data.rectyp L.ext_offset
              L.record_data.load_offset (L.rec_byte_offset + 1) (c :: u) := by
          by_cases h00 : L.record_data.rectyp = 0
          · simp [lexerAfterDataByte, extStepOffset, h00]
          · exact dataMsgs_ext_congr cb _ _ _ _ h00 _ _
        have htailT : dataTrace cb L.record_data.rectyp (lexerAfterDataByte L b).ext_offset
            L.record_data.load_offset (L.rec_byte_offset + 1) (c :: u)
            = dataTrace cb L.record_data.rectyp L.ext_offset
              L.record_data.load_offset (L.rec_byte_offset + 1) (c :: u) := by
          by_cases h00 : L.record_data.rectyp = 0
          · simp [lexerAfterDataByte, extStepOffset, h00]
          · exact dataTrace_ext_congr cb _ _ _ _ h00 _ _
        rw [hLfinal] at hrun ⊢
        simp only [dataMsgs, dataTrace, dataByteMsg, dataByteTrace, hty, hoff, hrbo,
          htail, htailT, List.cons_append, List.append_assoc]
        by_cases h00 : L.record_data.rectyp = 0
        · simp [h00, lexerAfterDataByte, extStepOffset]
        · simp [h00, dataMsgs_ext_congr cb _ _ L.ext_offset _ h00 u,
            dataTrace_ext_congr cb _ _ L.ext_offset _ h00 u]

/-- Feeding one complete record line with a non-empty payload to a reader
waiting for a record mark: the per-byte messages, the final lexer state and
the callback trace. -/
theorem ihex_Run_record (cb : Option ihex_tDataCallback) (L : ihex_tLexer)
    (off ty chk : Nat) (payload : List Nat)
    (hs : L.state = IHEX_LEXER_STATE_WAIT_COLON)
    (h1 : 1 ≤ payload.length) (h255 : payload.length ≤ 255)
    (hoff : off < 65536) (hty : ty < 256) (hchk : chk < 256)
    (hbytes : ∀ b ∈ payload, b < 256) :
    ∃ E P,
      ihex_Run cb L (encodeRecord payload.length off ty payload chk) =
        (IHEX_MESSAGE_CONTINUE :: IHEX_MESSAGE_CONTINUE :: IHEX_MESSAGE_CONTINUE ::
          IHEX_MESSAGE_CONTINUE :: IHEX_MESSAGE_CONTINUE :: IHEX_MESSAGE_CONTINUE ::
          IHEX_MESSAGE_CONTINUE :: IHEX_MESSAGE_CONTINUE :: IHEX_MESSAGE_CONTINUE ::
          (dataMsgs cb ty (if ty = 2 ∨ ty = 4 then 0 else L.ext_offset) off 0 payload
            ++ [IHEX_MESSAGE_CONTINUE, recordFinalMsg payload.length off ty chk payload]),
         lexerAfterRecord payload.length off ty chk E P payload.length payload,
         dataTrace cb ty (if ty = 2 ∨ ty = 4 then 0 else L.ext_offset) off 0 payload) := by
  have hlen : payload.length < 256 := by omega
  have hrec : encodeRecord payload.length off ty payload chk
      = 58 :: (encodeByte payload.length ++ (encodeWord16 off ++ (encodeByte ty
        ++ (payloadChars payload ++ (encodeByte chk ++ []))))) := by
    simp [encodeRecord]
  rw [hrec, ihex_Run_mark cb L _ hs]
  rw [ihex_Run_reclen cb (lexerAfterMark L) _ payload.length (by simp [lexerAfterMark])
    (by simp [lexerAfterMark]) (by simp [lexerAfterMark, ihex_zeroRecordData]) hlen]
  rw [ihex_Run_addr cb _ _ off (by simp [lexerAfterLen]) (by simp [lexerAfterLen])
    (by simp [lexerAfterLen, lexerAfterMark, ihex_zeroRecordData]) hoff]
  rw [ihex_Run_rectyp cb _ _ ty (by simp [lexerAfterAddr]) (by simp [lexerAfterAddr])
    (by simp [lexerAfterAddr, lexerAfterLen, lexerAfterMark, ihex_zeroRecordData]) hty]
  have hreclen : (lexerAfterType (lexerAfterAddr (lexerAfterLen (lexerAfterMark L)
      payload.length) off) ty).record_data.reclen = payload.length := by
    simp [lexerAfterType, lexerAfterAddr, lexerAfterLen, lexerAfterMark]
  obtain ⟨E, P, hd⟩ := ihex_Run_dataPhase cb payload
    (lexerAfterType (lexerAfterAddr (lexerAfterLen (lexerAfterMark L) payload.length) off) ty)
    (encodeByte chk ++ [])
    (by simp [lexerAfterType, lexerAfterAddr, lexerAfterLen, lexerAfterMark,
      show 0 < payload.length from h1])
    (by simp [lexerAfterType, lexerAfterAddr, lexerAfterLen, lexerAfterMark,
      show 0 < payload.length from h1]; omega)
    h1 h255
    (by simp [lexerAfterType])
    hbytes
    (by simp [lexerAfterType, lexerAfterAddr, lexerAfterLen, lexerAfterMark]; omega)
  rw [hd]
  rw [ihex_Run_chksum cb _ [] chk (by simp [lexerAfterData]) (by simp [lexerAfterData])
    (by simp [lexerAfterData, lexerAfterType, lexerAfterAddr, lexerAfterLen,
      lexerAfterMark, ihex_zeroRecordData]) hchk]
  refine ⟨E, P, ?_⟩
  simp only [ihex_Run]
  simp [lexerAfterData, lexerAfterType, lexerAfterAddr, lexerAfterLen, lexerAfterMark,
    lexerAfterChk, lexerAfterRecord, recordFinalMsg, chkMsg, ihex_recordSum,
    ihex_zeroRecordData]

/-- Feeding one complete record line with an empty payload. -/
theorem ihex_Run_record0 (cb : Option ihex_tDataCallback) (L : ihex_tLexer)
    (off ty chk : Nat) (hs : L.state = IHEX_LEXER_STATE_WAIT_COLON)
    (hoff : off < 65536) (hty : ty < 256) (hchk : chk < 256) :
    ihex_Run cb L (encodeRecord 0 off ty [] chk) =
      ([IHEX_MESSAGE_CONTINUE, IHEX_MESSAGE_CONTINUE, IHEX_MESSAGE_CONTINUE,
        IHEX_MESSAGE_CONTINUE, IHEX_MESSAGE_CONTINUE, IHEX_MESSAGE_CONTINUE,
        IHEX_MESSAGE_CONTINUE, IHEX_MESSAGE_CONTINUE, IHEX_MESSAGE_CONTINUE,
        IHEX_MESSAGE_CONTINUE, recordFinalMsg 0 off ty chk []],
       lexerAfterRecord 0 off ty chk
         (if ty = 2 ∨ ty = 4 then 0 else L.ext_offset)
         (if ty = 2 then 1 else if ty = 4 then 3 else L.ext_offset_byte_pos) 0 [],
       []) := by
  have hrec : encodeRecord 0 off ty [] chk
      = 58 :: (encodeByte 0 ++ (encodeWord16 off ++ (encodeByte ty
        ++ (encodeByte chk ++ [])))) := by
    simp [encodeRecord, payloadChars]
  rw [hrec, ihex_Run_mark cb L _ hs]
  rw [ihex_Run_reclen cb (lexerAfterMark L) _ 0 (by simp [lexerAfterMark])
    (by simp [lexerAfterMark]) (by simp [lexerAfterMark, ihex_zeroRecordData]) (by omega)]
  rw [ihex_Run_addr cb _ _ off (by simp [lexerAfterLen]) (by simp [lexerAfterLen])
    (by simp [lexerAfterLen, lexerAfterMark, ihex_zeroRecordData]) hoff]
  rw [ihex_Run_rectyp cb _ _ ty (by simp [lexerAfterAddr]) (by simp [lexerAfterAddr])
    (by simp [lexerAfterAddr, lexerAfterLen, lexerAfterMark, ihex_zeroRecordData]) hty]
  rw [ihex_Run_chksum cb _ [] chk
    (by simp [lexerAfterType, lexerAfterAddr, lexerAfterLen, lexerAfterMark,
      ihex_zeroRecordData])
    (by simp [lexerAfterType, lexerAfterAddr, lexerAfterLen, lexerAfterMark,
      ihex_zeroRecordData])
    (by simp [lexerAfterType, lexerAfterAddr, lexerAfterLen, lexerAfterMark,
      ihex_zeroRecordData]) hchk]
  simp only [ihex_Run]
  simp [lexerAfterType, lexerAfterAddr, lexerAfterLen, lexerAfterMark,
    lexerAfterChk, lexerAfterRecord, recordFinalMsg, chkMsg, ihex_recordSum,
    ihex_zeroRecordData]
  rw [show (off / 256 + off + ty) % 256 = (off / 256 + off % 256 + ty) % 256 from by
    omega]
  simp

/-- The payload-phase trace of a type-00 record with an installed callback:
one entry per payload byte, in order, whose address is base + offset + index. -/
theorem dataTrace_type0 (f : ihex_tDataCallback) (e off : Nat) (l : List Nat) :
    ∀ r, dataTrace (some f) 0 e off r l =
      (List.range l.length).map
        (fun i => ((e + off + (r + i)) % 4294967296, l.getD i 0)) := by
  induction l with
  | nil => intro r; simp [dataTrace]
  | cons b t ih =>
      intro r
      simp only [dataTrace, dataCallTrace, List.length_cons, List.range_succ_eq_map,
        List.map_cons, List.map_map, ih (r + 1)]
      norm_num
      intro a ha
      omega

/-- When the callback never rejects, every payload-phase message is
`Continue`. -/
theorem dataMsgs_all_continue (cb : Option ihex_tDataCallback)
    (hcb : ∀ a b, dataCallMsg cb a b = IHEX_MESSAGE_CONTINUE)
    (ty e off : Nat) (l : List Nat) :
    ∀ r m, m ∈ dataMsgs cb ty e off r l → m = IHEX_MESSAGE_CONTINUE := by
  induction l with
  | nil => intro r m hm; simp [dataMsgs] at hm
  | cons b t ih =>
      intro r m hm
      simp only [dataMsgs, List.mem_cons] at hm
      rcases hm with h | h | h
      · exact h
      · subst h
        split_ifs with h0
        · exact hcb _ _
        · rfl
      · exact ih (r + 1) m h

/-- The callback trace of one complete type-00 record line: one entry per
payload byte, in order, the i-th call receiving address
`extensionBase + loadOffset + i` (32-bit) and the i-th payload byte;
the trailing checksum field is arbitrary. -/
theorem ihex_Run_type00_trace (f : ihex_tDataCallback) (L : ihex_tLexer)
    (off chk : Nat) (payload : List Nat)
    (hs : L.state = IHEX_LEXER_STATE_WAIT_COLON)
    (h255 : payload.length ≤ 255) (hoff : off < 65536) (hchk : chk < 256)
    (hbytes : ∀ b ∈ payload, b < 256) :
    (ihex_Run (some f) L (encodeRecord payload.length off 0 payload chk)).2.2 =
      (List.range payload.length).map
        (fun i => ((L.ext_offset + off + i) % 4294967296, payload.getD i 0)) := by
  rcases payload with _ | ⟨b, t⟩
  · have h := ihex_Run_record0 (some f) L off 0 chk hs hoff (by omega) hchk
    simp only [List.length_nil] at h ⊢
    rw [h]
    simp
  · obtain ⟨E, P, h⟩ := ihex_Run_record (some f) L off 0 chk (b :: t) hs (by simp)
      h255 hoff (by omega) hchk hbytes
    rw [h]
    simp only [show ¬((0 : Nat) = 2 ∨ (0 : Nat) = 4) from by simp, if_neg,
      not_false_iff]
    rw [dataTrace_type0 f L.ext_offset off (b :: t) 0]
    simp

/-- C1: for a well-formed type-00 record with declared length equal to its
payload length, fed after the record mark state is reached, the data
callback is invoked exactly once per payload byte, in order, the i-th call
receiving address `extensionBase + loadOffset + i` (32-bit) and the i-th
payload byte. -/
theorem C1_type00_callback_trace (f : ihex_tDataCallback) (L : ihex_tLexer)
    (off chk : Nat) (payload : List Nat)
    (hs : L.state = IHEX_LEXER_STATE_WAIT_COLON)
    (h255 : payload.length ≤ 255) (hoff : off < 65536) (hchk : chk < 256)
    (hbytes : ∀ b ∈ payload, b < 256) :
    (ihex_Run (some f) L (encodeRecord payload.length off 0 payload chk)).2.2 =
      (List.range payload.length).map
        (fun i => ((L.ext_offset + off + i) % 4294967296, payload.getD i 0)) :=
  ihex_Run_type00_trace f L off chk payload hs h255 hoff hchk hbytes

/-- C1 witness: a one-byte record at offset 0x0030 produces exactly one
callback at address 0x0030 with the byte 0x55. -/
theorem C1_type00_callback_trace_witness :
    (ihex_Run (some cbContinue) (ihex_Begin ihex_lexer0)
        (encodeRecord (List.length [85]) 48 0 [85] 0)).2.2 =
      (List.range (List.length [85])).map
        (fun i => (((ihex_Begin ihex_lexer0).ext_offset + 48 + i) % 4294967296,
          List.getD [85] i 0)) :=
  C1_type00_callback_trace cbContinue (ihex_Begin ihex_lexer0) 48 0 [85]
    (by decide) (by decide) (by decide) (by decide) (by decide)

/-- C2: for any record whose type is not 01, the final `ihex_Put` call of
the record line answers `Continue` when the two's complement of the running
field-byte sum equals the parsed target checksum and `ChecksumError`
otherwise, and the machine is back in the `WAIT_COLON` state afterwards. -/
theorem C2_checksum_verdict (cb : Option ihex_tDataCallback) (L : ihex_tLexer)
    (off ty chk : Nat) (payload : List Nat)
    (hs : L.state = IHEX_LEXER_STATE_WAIT_COLON) (hty1 : ty ≠ 1)
    (hty : ty < 256) (h255 : payload.length ≤ 255) (hoff : off < 65536)
    (hchk : chk < 256) (hbytes : ∀ b ∈ payload, b < 256) :
    (ihex_Run cb L (encodeRecord payload.length off ty payload chk)).1.getLast? =
      some (if twosComplement8 (ihex_recordSum payload.length off ty payload) = chk
        then IHEX_MESSAGE_CONTINUE else IHEX_MESSAGE_CHECK_SUM_ERROR)
    ∧ (ihex_Run cb L (encodeRecord payload.length off ty payload chk)).2.1.state
        = IHEX_LEXER_STATE_WAIT_COLON := by
  rcases payload with _ | ⟨b, t⟩
  · have h := ihex_Run_record0 cb L off ty chk hs hoff hty hchk
    simp only [List.length_nil] at h ⊢
    rw [h]
    simp [recordFinalMsg, hty1, lexerAfterRecord, twosComplement8, ite_not]
  · obtain ⟨E, P, h⟩ := ihex_Run_record cb L off ty chk (b :: t) hs (by simp)
      h255 hoff hty hchk hbytes
    rw [h]
    constructor
    · rw [show IHEX_MESSAGE_CONTINUE :: IHEX_MESSAGE_CONTINUE :: IHEX_MESSAGE_CONTINUE ::
          IHEX_MESSAGE_CONTINUE :: IHEX_MESSAGE_CONTINUE :: IHEX_MESSAGE_CONTINUE ::
          IHEX_MESSAGE_CONTINUE :: IHEX_MESSAGE_CONTINUE :: IHEX_MESSAGE_CONTINUE ::
          (dataMsgs cb ty (if ty = 2 ∨ ty = 4 then 0 else L.ext_offset) off 0 (b :: t)
            ++ [IHEX_MESSAGE_CONTINUE,
              recordFinalMsg (b :: t).length off ty chk (b :: t)]) =
          (IHEX_MESSAGE_CONTINUE :: IHEX_MESSAGE_CONTINUE :: IHEX_MESSAGE_CONTINUE ::
          IHEX_MESSAGE_CONTINUE :: IHEX_MESSAGE_CONTINUE :: IHEX_MESSAGE_CONTINUE ::
          IHEX_MESSAGE_CONTINUE :: IHEX_MESSAGE_CONTINUE :: IHEX_MESSAGE_CONTINUE ::
          (dataMsgs cb ty (if ty = 2 ∨ ty = 4 then 0 else L.ext_offset) off 0 (b :: t)
            ++ [IHEX_MESSAGE_CONTINUE]))
            ++ [recordFinalMsg (b :: t).length off ty chk (b :: t)] from by simp]
      rw [List.getLast?_concat]
      simp [recordFinalMsg, hty1, twosComplement8, ite_not]
    · simp [lexerAfterRecord]

/-- C2 witness: the classic sample record with a correct checksum yields a
final `Continue` and returns to the mark state. -/
theorem C2_checksum_verdict_witness :
    (ihex_Run none (ihex_Begin ihex_lexer0)
        (encodeRecord (List.length [2, 51, 122]) 48 0 [2, 51, 122] 30)).1.getLast? =
      some (if twosComplement8 (ihex_recordSum (List.length [2, 51, 122]) 48 0
          [2, 51, 122]) = 30
        then IHEX_MESSAGE_CONTINUE else IHEX_MESSAGE_CHECK_SUM_ERROR)
    ∧ (ihex_Run none (ihex_Begin ihex_lexer0)
        (encodeRecord (List.length [2, 51, 122]) 48 0 [2, 51, 122] 30)).2.1.state
        = IHEX_LEXER_STATE_WAIT_COLON :=
  C2_checksum_verdict none (ihex_Begin ihex_lexer0) 48 0 30 [2, 51, 122]
    (by decide) (by decide) (by decide) (by decide) (by decide) (by decide) (by decide)

/-- The last per-byte message of a full record line is the checksum-phase
verdict. -/
theorem recordMsgs_getLast (dm : List ihex_tMessage) (fm : ihex_tMessage) :
    (IHEX_MESSAGE_CONTINUE :: IHEX_MESSAGE_CONTINUE :: IHEX_MESSAGE_CONTINUE ::
      IHEX_MESSAGE_CONTINUE :: IHEX_MESSAGE_CONTINUE :: IHEX_MESSAGE_CONTINUE ::
      IHEX_MESSAGE_CONTINUE :: IHEX_MESSAGE_CONTINUE :: IHEX_MESSAGE_CONTINUE ::
      (dm ++ [IHEX_MESSAGE_CONTINUE, fm])).getLast? = some fm := by
  rw [show IHEX_MESSAGE_CONTINUE :: IHEX_MESSAGE_CONTINUE :: IHEX_MESSAGE_CONTINUE ::
      IHEX_MESSAGE_CONTINUE :: IHEX_MESSAGE_CONTINUE :: IHEX_MESSAGE_CONTINUE ::
      IHEX_MESSAGE_CONTINUE :: IHEX_MESSAGE_CONTINUE :: IHEX_MESSAGE_CONTINUE ::
      (dm ++ [IHEX_MESSAGE_CONTINUE, fm])
      = (IHEX_MESSAGE_CONTINUE :: IHEX_MESSAGE_CONTINUE :: IHEX_MESSAGE_CONTINUE ::
      IHEX_MESSAGE_CONTINUE :: IHEX_MESSAGE_CONTINUE :: IHEX_MESSAGE_CONTINUE ::
      IHEX_MESSAGE_CONTINUE :: IHEX_MESSAGE_CONTINUE :: IHEX_MESSAGE_CONTINUE ::
      (dm ++ [IHEX_MESSAGE_CONTINUE])) ++ [fm] from by simp]
  rw [List.getLast?_concat]

theorem twosComplement8_lt (c : Nat) : twosComplement8 c < 256 :=
  Nat.mod_lt _ (by norm_num)

/-- C5: a record whose type field is 01 ends with `End`, whatever the
checksum field or the running sum. -/
theorem C5_eof_end (cb : Option ihex_tDataCallback) (L : ihex_tLexer)
    (off chk : Nat) (payload : List Nat)
    (hs : L.state = IHEX_LEXER_STATE_WAIT_COLON)
    (h255 : payload.length ≤ 255) (hoff : off < 65536) (hchk : chk < 256)
    (hbytes : ∀ b ∈ payload, b < 256) :
    (ihex_Run cb L (encodeRecord payload.length off 1 payload chk)).1.getLast? =
      some IHEX_MESSAGE_END := by
  rcases payload with _ | ⟨b, t⟩
  · have h := ihex_Run_record0 cb L off 1 chk hs hoff (by omega) hchk
    simp only [List.length_nil] at h ⊢
    rw [h]
    simp [recordFinalMsg]
  · obtain ⟨E, P, h⟩ := ihex_Run_record cb L off 1 chk (b :: t) hs (by simp)
      h255 hoff (by omega) hchk hbytes
    rw [h]
    rw [recordMsgs_getLast]
    simp [recordFinalMsg]

/-- C5 witness: feeding `:00000001FF` (the encoding of the empty type-01
record with checksum 0xFF) ends with `End`. -/
theorem C5_eof_end_witness :
    (ihex_Run none (ihex_Begin ihex_lexer0)
        (encodeRecord (List.length ([] : List Nat)) 0 1 [] 255)).1.getLast? =
      some IHEX_MESSAGE_END :=
  C5_eof_end none (ihex_Begin ihex_lexer0) 0 255 [] (by decide) (by decide)
    (by decide) (by decide) (by decide)

/-- C4 (amended): encoding any record with the two's-complement checksum and
replaying it through a freshly listening reader yields `Continue` for every
byte (provided the callback, if any, always answers `Continue` and the type
is not the end-of-file type 01). -/
theorem C4_roundtrip_continue (cb : Option ihex_tDataCallback) (L : ihex_tLexer)
    (off ty : Nat) (payload : List Nat)
    (hs : L.state = IHEX_LEXER_STATE_WAIT_COLON)
    (hcb : ∀ a b, dataCallMsg cb a b = IHEX_MESSAGE_CONTINUE)
    (hty1 : ty ≠ 1) (hty : ty < 256) (h255 : payload.length ≤ 255)
    (hoff : off < 65536) (hbytes : ∀ b ∈ payload, b < 256) :
    ∀ m ∈ (ihex_Run cb L (encodeRecord payload.length off ty payload
        (twosComplement8 (ihex_recordSum payload.length off ty payload)))).1,
      m = IHEX_MESSAGE_CONTINUE := by
  rcases payload with _ | ⟨b, t⟩
  · have h := ihex_Run_record0 cb L off ty
      (twosComplement8 (ihex_recordSum 0 off ty [])) hs hoff hty
      (twosComplement8_lt _)
    simp only [List.length_nil] at h ⊢
    rw [h]
    intro m hm
    simp [recordFinalMsg, hty1, twosComplement8] at hm
    exact hm
  · obtain ⟨E, P, h⟩ := ihex_Run_record cb L off ty
      (twosComplement8 (ihex_recordSum (b :: t).length off ty (b :: t)))
      (b :: t) hs (by simp) h255 hoff hty (twosComplement8_lt _) hbytes
    rw [h]
    intro m hm
    simp only [List.mem_cons, List.mem_append, List.mem_singleton] at hm
    rcases hm with h1 | h1 | h1 | h1 | h1 | h1 | h1 | h1 | h1 | h1 | h1 | h1 | h1
    all_goals first
      | exact h1
      | exact dataMsgs_all_continue cb hcb _ _ _ _ _ _ h1
      | (rw [h1]
         simp [recordFinalMsg, hty1, twosComplement8])
      | simp at h1

/-- C4 witness: the first byte of the one-byte record `:0100000055AA`
(correct checksum) is answered with `Continue`. -/
theorem C4_roundtrip_continue_witness :
    List.getD (ihex_Run none (ihex_Begin ihex_lexer0)
        (encodeRecord (List.length [85]) 0 0 [85]
          (twosComplement8 (ihex_recordSum (List.length [85]) 0 0 [85])))).1 0
        IHEX_MESSAGE_VERIFICATION_ERROR
      = IHEX_MESSAGE_CONTINUE :=
  C4_roundtrip_continue none (ihex_Begin ihex_lexer0) 0 0 [85] (by decide)
    (fun _ _ => rfl) (by decide) (by decide) (by decide) (by decide) (by decide)
    (List.getD (ihex_Run none (ihex_Begin ihex_lexer0)
        (encodeRecord (List.length [85]) 0 0 [85]
          (twosComplement8 (ihex_recordSum (List.length [85]) 0 0 [85])))).1 0
        IHEX_MESSAGE_VERIFICATION_ERROR)
    (by decide)

/-- C4 counterexample: replacing the leading `:` of the correctly
checksummed line `:0100000055AA` by the hex digit `0` changes exactly one
character, yet every `ihex_Put` call on the modified line still returns
`Continue` — single-character corruption is not always detected. -/
theorem C4_corruption_undetected :
    48 :: (encodeRecord 1 0 0 [85] 170).tail ≠ encodeRecord 1 0 0 [85] 170
    ∧ (48 :: (encodeRecord 1 0 0 [85] 170).tail).length
        = (encodeRecord 1 0 0 [85] 170).length
    ∧ 170 = twosComplement8 (ihex_recordSum 1 0 0 [85])
    ∧ ∀ m ∈ (ihex_Run none (ihex_Begin ihex_lexer0)
        (48 :: (encodeRecord 1 0 0 [85] 170).tail)).1, m = IHEX_MESSAGE_CONTINUE := by
  decide

/-- C6 (amended): in the `WAIT_COLON` state any byte other than `:` leaves
the reader unchanged; CR, LF and hex digits are answered with `Continue`,
while any other byte is answered with `InvalidInput` (the validity check of
`ihex_Put` fires before the state machine ignores the byte). -/
theorem C6_await_mark_ignores (cb : Option ihex_tDataCallback) (L : ihex_tLexer)
    (b : Nat) (hs : L.state = IHEX_LEXER_STATE_WAIT_COLON) (hne : b ≠ 58) :
    ihex_Put cb L b =
      ((if b = 10 ∨ b = 13 ∨ ihex_IsValidData b then IHEX_MESSAGE_CONTINUE
        else IHEX_MESSAGE_INVALID_INPUT_DATA), L, []) := by
  by_cases h10 : b = 10
  · simp [ihex_Put, h10]
  · by_cases h13 : b = 13
    · simp [ihex_Put, h13]
    · by_cases hv : ihex_IsValidData b
      · simp [ihex_Put, h10, h13, hv, ihex_Lexer, hs, hne]
      · simp [ihex_Put, h10, h13, hv]

/-- C6 witness: the hex digit `F` (70) is silently skipped in `WAIT_COLON`. -/
theorem C6_await_mark_ignores_witness :
    ihex_Put none (ihex_Begin ihex_lexer0) 70 =
      ((if (70 : Nat) = 10 ∨ (70 : Nat) = 13 ∨ ihex_IsValidData 70 then
          IHEX_MESSAGE_CONTINUE
        else IHEX_MESSAGE_INVALID_INPUT_DATA), ihex_Begin ihex_lexer0, []) :=
  C6_await_mark_ignores none (ihex_Begin ihex_lexer0) 70 (by decide) (by decide)

/-- C6 counterexample: the byte `g` (103) fed in `WAIT_COLON` returns
`InvalidInput`, not `Continue` as the claim states. -/
theorem C6_nonhex_not_continue :
    (ihex_Put none (ihex_Begin ihex_lexer0) 103).1
      = IHEX_MESSAGE_INVALID_INPUT_DATA
    ∧ (ihex_Put none (ihex_Begin ihex_lexer0) 103).1 ≠ IHEX_MESSAGE_CONTINUE := by
  decide

/-- C3 (amended): a byte that is neither a hex digit, nor CR/LF, nor `:`
yields `InvalidInput` and leaves the reader state completely unchanged; the
byte `:` in a digit-expecting state also yields `InvalidInput`, but only
after the remaining-digit counter has been decremented. -/
theorem C3_invalid_input (cb : Option ihex_tDataCallback) (L : ihex_tLexer)
    (b : Nat) (hstate : L.state ≠ IHEX_LEXER_STATE_WAIT_COLON) :
    (¬ ihex_IsValidData b = true → b ≠ 10 → b ≠ 13 →
      ihex_Put cb L b = (IHEX_MESSAGE_INVALID_INPUT_DATA, L, []))
    ∧ ihex_Put cb L 58 =
      (IHEX_MESSAGE_INVALID_INPUT_DATA,
        { L with num_expected_characters :=
            (L.num_expected_characters + 65535) % 65536 }, []) := by
  constructor
  · intro hv h10 h13
    simp [ihex_Put, h10, h13, hv]
  · rcases hst : L.state
    · exact absurd hst hstate
    all_goals simp [ihex_Put, ihex_IsValidData, ihex_Lexer, hst, ihex_CharToValue]

/-- C3 witness: the byte `g` (103) in the byte-count state is rejected with
the state untouched, and `:` (58) is rejected with the counter decremented. -/
theorem C3_invalid_input_witness :
    (¬ ihex_IsValidData 103 = true → (103 : Nat) ≠ 10 → (103 : Nat) ≠ 13 →
      ihex_Put none (ihex_Put none (ihex_Begin ihex_lexer0) 58).2.1 103
        = (IHEX_MESSAGE_INVALID_INPUT_DATA,
          (ihex_Put none (ihex_Begin ihex_lexer0) 58).2.1, []))
    ∧ ihex_Put none (ihex_Put none (ihex_Begin ihex_lexer0) 58).2.1 58 =
      (IHEX_MESSAGE_INVALID_INPUT_DATA,
        { (ihex_Put none (ihex_Begin ihex_lexer0) 58).2.1 with
            num_expected_characters :=
              ((ihex_Put none (ihex_Begin ihex_lexer0) 58).2.1.num_expected_characters
                + 65535) % 65536 }, []) :=
  C3_invalid_input none (ihex_Put none (ihex_Begin ihex_lexer0) 58).2.1 103
    (by decide)

/-- C3 counterexample: feeding `:` right after a record mark (the machine
expects the first length digit) returns `InvalidInput`, but the reader state
is NOT unchanged — the remaining-digit counter dropped from 2 to 1. -/
theorem C3_colon_consumes_slot :
    (ihex_Put none (ihex_Put none (ihex_Begin ihex_lexer0) 58).2.1 58).1
      = IHEX_MESSAGE_INVALID_INPUT_DATA
    ∧ (ihex_Put none (ihex_Put none (ihex_Begin ihex_lexer0) 58).2.1 58).2.1
      ≠ (ihex_Put none (ihex_Begin ihex_lexer0) 58).2.1 := by
  decide

/-- Disjoint bit ranges: a high byte shifted left 8 OR a low byte is their
sum. -/
theorem lor_byte_low (a b : Nat) (hb : b < 256) : a * 256 ||| b = a * 256 + b := by
  have h := (Nat.mul_add_lt_is_or (i := 8) (by omega : b < 2 ^ 8) a).symm
  calc a * 256 ||| b = 2 ^ 8 * a ||| b := by ring_nf
    _ = 2 ^ 8 * a + b := h
    _ = a * 256 + b := by ring

/-- Disjoint bit ranges: byte 3 OR byte 2 of a 32-bit value is their sum. -/
theorem lor_byte_hi (a b : Nat) (hb : b < 256) :
    a * 16777216 ||| b * 65536 = a * 16777216 + b * 65536 := by
  have h := (Nat.mul_add_lt_is_or (i := 24)
    (by omega : b * 65536 < 2 ^ 24) a).symm
  calc a * 16777216 ||| b * 65536 = 2 ^ 24 * a ||| b * 65536 := by ring_nf
    _ = 2 ^ 24 * a + b * 65536 := h
    _ = a * 16777216 + b * 65536 := by ring

/-- The two payload bytes of an extended-segment-address record (type 02)
set the extension offset to the carried 16-bit value scaled by 16. -/
theorem ihex_Run_segment2 (cb : Option ihex_tDataCallback) (D : ihex_tLexer)
    (rest : List Nat) (b1 b0 : Nat)
    (hs : D.state = IHEX_LEXER_STATE_WAIT_DATA)
    (hn : D.num_expected_characters = 4)
    (hty : D.record_data.rectyp = 2) (hd0 : D.record_data.data = 0)
    (hext : D.ext_offset = 0) (hpos : D.ext_offset_byte_pos = 1)
    (hrb : D.rec_byte_offset + 2 < 65536) (hb1 : b1 < 256) (hb0 : b0 < 256) :
    ihex_Run cb D (encodeByte b1 ++ (encodeByte b0 ++ rest)) =
      (IHEX_MESSAGE_CONTINUE :: IHEX_MESSAGE_CONTINUE :: IHEX_MESSAGE_CONTINUE ::
          IHEX_MESSAGE_CONTINUE ::
          (ihex_Run cb
            { D with state := IHEX_LEXER_STATE_WAIT_CHECK_SUM,
                     num_expected_characters := 2,
                     calc_chksum := ((D.calc_chksum + b1) % 256 + b0) % 256,
                     rec_byte_offset := D.rec_byte_offset + 2,
                     ext_offset := 16 * (b1 * 256 + b0),
                     ext_offset_byte_pos := 255,
                     record_data := { D.record_data with data := 0 } } rest).1,
        (ihex_Run cb
          { D with state := IHEX_LEXER_STATE_WAIT_CHECK_SUM,
                   num_expected_characters := 2,
                   calc_chksum := ((D.calc_chksum + b1) % 256 + b0) % 256,
                   rec_byte_offset := D.rec_byte_offset + 2,
                   ext_offset := 16 * (b1 * 256 + b0),
                   ext_offset_byte_pos := 255,
                   record_data := { D.record_data with data := 0 } } rest).2.1,
        (ihex_Run cb
          { D with state := IHEX_LEXER_STATE_WAIT_CHECK_SUM,
                   num_expected_characters := 2,
                   calc_chksum := ((D.calc_chksum + b1) % 256 + b0) % 256,
                   rec_byte_offset := D.rec_byte_offset + 2,
                   ext_offset := 16 * (b1 * 256 + b0),
                   ext_offset_byte_pos := 255,
                   record_data := { D.record_data with data := 0 } } rest).2.2) := by
  rw [ihex_Run_dataByte cb D _ b1 2 hs (by rw [hn]) (by omega) (by omega) hd0 hb1]
  have hD1 : lexerAfterDataByte D b1 =
      { D with state := IHEX_LEXER_STATE_WAIT_DATA,
               num_expected_characters := 2,
               calc_chksum := (D.calc_chksum + b1) % 256,
               rec_byte_offset := D.rec_byte_offset + 1,
               ext_offset := b1 * 256,
               ext_offset_byte_pos := 0,
               record_data := { D.record_data with data := 0 } } := by
    have o1 : (0 ||| b1 <<< (8 * 1)) % 4294967296 = b1 * 256 := by
      simp [Nat.shiftLeft_eq]
      omega
    simp only [lexerAfterDataByte, extStepOffset, extStepPos, hn, hty, hext, hpos, hs]
    norm_num [o1]
    omega
  rw [hD1]
  rw [ihex_Run_dataByte cb _ _ b0 1 rfl rfl (by omega) (by omega) (by simp) hb0]
  have hD2 : lexerAfterDataByte
      { D with state := IHEX_LEXER_STATE_WAIT_DATA,
               num_expected_characters := 2,
               calc_chksum := (D.calc_chksum + b1) % 256,
               rec_byte_offset := D.rec_byte_offset + 1,
               ext_offset := b1 * 256,
               ext_offset_byte_pos := 0,
               record_data := { D.record_data with data := 0 } } b0 =
      { D with state := IHEX_LEXER_STATE_WAIT_CHECK_SUM,
               num_expected_characters := 2,
               calc_chksum := ((D.calc_chksum + b1) % 256 + b0) % 256,
               rec_byte_offset := D.rec_byte_offset + 2,
               ext_offset := 16 * (b1 * 256 + b0),
               ext_offset_byte_pos := 255,
               record_data := { D.record_data with data := 0 } } := by
    have o2 : (((b1 * 256 ||| b0) % 4294967296) <<< 4) % 4294967296
        = 16 * (b1 * 256 + b0) := by
      rw [lor_byte_low b1 b0 hb0,
        Nat.mod_eq_of_lt (by omega : b1 * 256 + b0 < 4294967296),
        Nat.shiftLeft_eq,
        Nat.mod_eq_of_lt (by norm_num; omega : (b1 * 256 + b0) * 2 ^ 4 < 4294967296)]
      ring
    simp only [lexerAfterDataByte, extStepOffset, extStepPos, hty]
    norm_num [Nat.shiftLeft_zero]
    simp only [o2]
    norm_num
    omega
  rw [hD2]
  have hm1 : dataByteMsg cb D b1 = IHEX_MESSAGE_CONTINUE := by
    simp [dataByteMsg, hty]
  have hm2 : dataByteMsg cb
      { D with state := IHEX_LEXER_STATE_WAIT_DATA,
               num_expected_characters := 2,
               calc_chksum := (D.calc_chksum + b1) % 256,
               rec_byte_offset := D.rec_byte_offset + 1,
               ext_offset := b1 * 256,
               ext_offset_byte_pos := 0,
               record_data := { D.record_data with data := 0 } } b0
      = IHEX_MESSAGE_CONTINUE := by
    simp [dataByteMsg, hty]
  have ht1 : dataByteTrace cb D b1 = [] := by
    simp [dataByteTrace, hty]
  have ht2 : dataByteTrace cb
      { D with state := IHEX_LEXER_STATE_WAIT_DATA,
               num_expected_characters := 2,
               calc_chksum := (D.calc_chksum + b1) % 256,
               rec_byte_offset := D.rec_byte_offset + 1,
               ext_offset := b1 * 256,
               ext_offset_byte_pos := 0,
               record_data := { D.record_data with data := 0 } } b0 = [] := by
    simp [dataByteTrace, hty]
  rw [hm1, hm2, ht1, ht2]
  simp

/-- The two payload bytes of an extended-linear-address record (type 04)
set the extension offset to the carried 16-bit value shifted into bits
16-31. -/
theorem ihex_Run_linear2 (cb : Option ihex_tDataCallback) (D : ihex_tLexer)
    (rest : List Nat) (b1 b0 : Nat)
    (hs : D.state = IHEX_LEXER_STATE_WAIT_DATA)
    (hn : D.num_expected_characters = 4)
    (hty : D.record_data.rectyp = 4) (hd0 : D.record_data.data = 0)
    (hext : D.ext_offset = 0) (hpos : D.ext_offset_byte_pos = 3)
    (hrb : D.rec_byte_offset + 2 < 65536) (hb1 : b1 < 256) (hb0 : b0 < 256) :
    ihex_Run cb D (encodeByte b1 ++ (encodeByte b0 ++ rest)) =
      (IHEX_MESSAGE_CONTINUE :: IHEX_MESSAGE_CONTINUE :: IHEX_MESSAGE_CONTINUE ::
          IHEX_MESSAGE_CONTINUE ::
          (ihex_Run cb
            { D with state := IHEX_LEXER_STATE_WAIT_CHECK_SUM,
                     num_expected_characters := 2,
                     calc_chksum := ((D.calc_chksum + b1) % 256 + b0) % 256,
                     rec_byte_offset := D.rec_byte_offset + 2,
                     ext_offset := b1 * 16777216 + b0 * 65536,
                     ext_offset_byte_pos := 1,
                     record_data := { D.record_data with data := 0 } } rest).1,
        (ihex_Run cb
          { D with state := IHEX_LEXER_STATE_WAIT_CHECK_SUM,
                   num_expected_characters := 2,
                   calc_chksum := ((D.calc_chksum + b1) % 256 + b0) % 256,
                   rec_byte_offset := D.rec_byte_offset + 2,
                   ext_offset := b1 * 16777216 + b0 * 65536,
                   ext_offset_byte_pos := 1,
                   record_data := { D.record_data with data := 0 } } rest).2.1,
        (ihex_Run cb
          { D with state := IHEX_LEXER_STATE_WAIT_CHECK_SUM,
                   num_expected_characters := 2,
                   calc_chksum := ((D.calc_chksum + b1) % 256 + b0) % 256,
                   rec_byte_offset := D.rec_byte_offset + 2,
                   ext_offset := b1 * 16777216 + b0 * 65536,
                   ext_offset_byte_pos := 1,
                   record_data := { D.record_data with data := 0 } } rest).2.2) := by
  rw [ihex_Run_dataByte cb D _ b1 2 hs (by rw [hn]) (by omega) (by omega) hd0 hb1]
  have hD1 : lexerAfterDataByte D b1 =
      { D with state := IHEX_LEXER_STATE_WAIT_DATA,
               num_expected_characters := 2,
               calc_chksum := (D.calc_chksum + b1) % 256,
               rec_byte_offset := D.rec_byte_offset + 1,
               ext_offset := b1 * 16777216,
               ext_offset_byte_pos := 2,
               record_data := { D.record_data with data := 0 } } := by
    have o1 : (0 ||| b1 <<< (8 * 3)) % 4294967296 = b1 * 16777216 := by
      simp [Nat.shiftLeft_eq]
      omega
    simp only [lexerAfterDataByte, extStepOffset, extStepPos, hn, hty, hext, hpos, hs]
    norm_num [o1]
    omega
  rw [hD1]
  rw [ihex_Run_dataByte cb _ _ b0 1 rfl rfl (by omega) (by omega) (by simp) hb0]
  have hD2 : lexerAfterDataByte
      { D with state := IHEX_LEXER_STATE_WAIT_DATA,
               num_expected_characters := 2,
               calc_chksum := (D.calc_chksum + b1) % 256,
               rec_byte_offset := D.rec_byte_offset + 1,
               ext_offset := b1 * 16777216,
               ext_offset_byte_pos := 2,
               record_data := { D.record_data with data := 0 } } b0 =
      { D with state := IHEX_LEXER_STATE_WAIT_CHECK_SUM,
               num_expected_characters := 2,
               calc_chksum := ((D.calc_chksum + b1) % 256 + b0) % 256,
               rec_byte_offset := D.rec_byte_offset + 2,
               ext_offset := b1 * 16777216 + b0 * 65536,
               ext_offset_byte_pos := 1,
               record_data := { D.record_data with data := 0 } } := by
    have o2 : (b1 * 16777216 ||| b0 <<< (8 * 2)) % 4294967296
        = b1 * 16777216 + b0 * 65536 := by
      rw [show (8 : Nat) * 2 = 16 from rfl, Nat.shiftLeft_eq,
        show (2 : Nat) ^ 16 = 65536 from rfl, lor_byte_hi b1 b0 hb0]
      omega
    simp only [lexerAfterDataByte, extStepOffset, extStepPos, hty]
    norm_num [o2]
    omega
  rw [hD2]
  have hm1 : dataByteMsg cb D b1 = IHEX_MESSAGE_CONTINUE := by
    simp [dataByteMsg, hty]
  have hm2 : dataByteMsg cb
      { D with state := IHEX_LEXER_STATE_WAIT_DATA,
               num_expected_characters := 2,
               calc_chksum := (D.calc_chksum + b1) % 256,
               rec_byte_offset := D.rec_byte_offset + 1,
               ext_offset := b1 * 16777216,
               ext_offset_byte_pos := 2,
               record_data := { D.record_data with data := 0 } } b0
      = IHEX_MESSAGE_CONTINUE := by
    simp [dataByteMsg, hty]
  have ht1 : dataByteTrace cb D b1 = [] := by
    simp [dataByteTrace, hty]
  have ht2 : dataByteTrace cb
      { D with state := IHEX_LEXER_STATE_WAIT_DATA,
               num_expected_characters := 2,
               calc_chksum := (D.calc_chksum + b1) % 256,
               rec_byte_offset := D.rec_byte_offset + 1,
               ext_offset := b1 * 16777216,
               ext_offset_byte_pos := 2,
               record_data := { D.record_data with data := 0 } } b0 = [] := by
    simp [dataByteTrace, hty]
  rw [hm1, hm2, ht1, ht2]
  simp

/-- The lexer state after one complete type-02 (extended segment address)
record with a 2-byte payload carrying the 16-bit value S: back in
`WAIT_COLON`, the extension offset holds the reassembled payload scaled by
16, the running checksum is finalised; no callback invocation happened. -/
theorem ihex_Run_segment_record (f : ihex_tDataCallback) (L : ihex_tLexer)
    (S off chk : Nat) (hs : L.state = IHEX_LEXER_STATE_WAIT_COLON)
    (hS : S < 65536) (hoff : off < 65536) (hchk : chk < 256) :
    (ihex_Run (some f) L (encodeRecord 2 off 2 [S / 256, S % 256] chk)).2
      = ({ state := IHEX_LEXER_STATE_WAIT_COLON, num_expected_characters := 0,
           ext_offset_byte_pos := 255,
           ext_offset := 16 * (S / 256 * 256 + S % 256),
           rec_byte_offset := 2,
           calc_chksum := ((ihex_recordSum 2 off 2 [S / 256, S % 256] ^^^ 255) + 1) % 256,
           record_data := ({ record_mark := 58, reclen := 2, load_offset := off, rectyp := 2, data := 0, target_check_sum := chk } : ihex_tRecordData) },
          []) := by
  have hrec : encodeRecord 2 off 2 [S / 256, S % 256] chk
      = 58 :: (encodeByte 2 ++ (encodeWord16 off ++ (encodeByte 2
        ++ (encodeByte (S / 256) ++ (encodeByte (S % 256) ++ (encodeByte chk ++ [])))))) := by
    simp [encodeRecord, payloadChars]
  rw [hrec, ihex_Run_mark (some f) L _ hs]
  rw [ihex_Run_reclen (some f) (lexerAfterMark L) _ 2 (by simp [lexerAfterMark])
    (by simp [lexerAfterMark]) (by simp [lexerAfterMark, ihex_zeroRecordData]) (by omega)]
  rw [ihex_Run_addr (some f) _ _ off (by simp [lexerAfterLen]) (by simp [lexerAfterLen])
    (by simp [lexerAfterLen, lexerAfterMark, ihex_zeroRecordData]) hoff]
  rw [ihex_Run_rectyp (some f) _ _ 2 (by simp [lexerAfterAddr]) (by simp [lexerAfterAddr])
    (by simp [lexerAfterAddr, lexerAfterLen, lexerAfterMark, ihex_zeroRecordData])
    (by omega)]
  rw [ihex_Run_segment2 (some f) _ _ (S / 256) (S % 256)
    (by simp [lexerAfterType, lexerAfterAddr, lexerAfterLen, lexerAfterMark,
      ihex_zeroRecordData])
    (by simp [lexerAfterType, lexerAfterAddr, lexerAfterLen, lexerAfterMark,
      ihex_zeroRecordData])
    (by simp [lexerAfterType, lexerAfterAddr, lexerAfterLen, lexerAfterMark,
      ihex_zeroRecordData])
    (by simp [lexerAfterType])
    (by simp [lexerAfterType])
    (by simp [lexerAfterType])
    (by simp [lexerAfterType, lexerAfterAddr, lexerAfterLen, lexerAfterMark,
      ihex_zeroRecordData])
    (by omega) (by omega)]
  rw [ihex_Run_chksum (some f) _ [] chk (by rfl) (by rfl)
    (by simp [lexerAfterType, lexerAfterAddr, lexerAfterLen, lexerAfterMark,
      ihex_zeroRecordData]) hchk]
  simp only [ihex_Run]
  simp [lexerAfterChk, lexerAfterType, lexerAfterAddr, lexerAfterLen, lexerAfterMark,
    ihex_recordSum]
  rw [show (2 + (off / 256 + off % 256) + 2 + S / 256 + S) % 256
    = (2 + (off / 256 + off % 256) + 2 + (S / 256 + S % 256)) % 256 from by omega]

/-- C7: a type-02 (extended segment address) record carrying the 16-bit
value S sets the extension base to S scaled by 16; a following type-00
record resolves its bytes against that base; concretely,
`:020000020010` yields base 0x100 and a following data record at
loadOffset 5 produces callback address 0x105. -/
theorem C7_segment_extension (f : ihex_tDataCallback) (L : ihex_tLexer)
    (S off chk : Nat) (hs : L.state = IHEX_LEXER_STATE_WAIT_COLON)
    (hS : S < 65536) (hoff : off < 65536) (hchk : chk < 256) :
    (ihex_Run (some f) L (encodeRecord 2 off 2 [S / 256, S % 256] chk)).2.1.ext_offset
        = 16 * S
    ∧ (ihex_Run (some f) L (encodeRecord 2 off 2 [S / 256, S % 256] chk)).2.1.state
        = IHEX_LEXER_STATE_WAIT_COLON
    ∧ (∀ off2 b chk2, off2 < 65536 → b < 256 → chk2 < 256 →
        (ihex_Run (some f)
            (ihex_Run (some f) L (encodeRecord 2 off 2 [S / 256, S % 256] chk)).2.1
            (encodeRecord 1 off2 0 [b] chk2)).2.2
          = [((16 * S + off2) % 4294967296, b)])
    ∧ (ihex_Run (some cbContinue) (ihex_Begin ihex_lexer0)
        (strBytes ":020000020010")).2.1.ext_offset = 256
    ∧ (ihex_Run (some cbContinue) (ihex_Begin ihex_lexer0)
        (strBytes ":020000020010EC:0100050055A5")).2.2 = [(261, 85)] := by
  have h1 := ihex_Run_segment_record f L S off chk hs hS hoff hchk
  have hext : (ihex_Run (some f) L
      (encodeRecord 2 off 2 [S / 256, S % 256] chk)).2.1.ext_offset = 16 * S := by
    rw [h1]
    simp
    omega
  have hstate : (ihex_Run (some f) L
      (encodeRecord 2 off 2 [S / 256, S % 256] chk)).2.1.state
      = IHEX_LEXER_STATE_WAIT_COLON := by
    rw [h1]
  refine ⟨hext, hstate, ?_, by decide, by decide⟩
  intro off2 b chk2 hoff2 hb hchk2
  obtain ⟨E2, P2, h2⟩ := ihex_Run_record (some f)
    (ihex_Run (some f) L (encodeRecord 2 off 2 [S / 256, S % 256] chk)).2.1
    off2 0 chk2 [b] hstate (by simp) (by simp) hoff2 (by omega) hchk2
    (by intro x hx; simp at hx; omega)
  simp only [List.length_singleton] at h2
  rw [h2]
  simp [dataTrace, dataCallTrace, hext]

/-- C7 witness: the segment value 0x0010 yields base 0x100 and a following
data record at loadOffset 5 resolves to address 0x105. -/
theorem C7_segment_extension_witness :
    (ihex_Run (some cbContinue) (ihex_Begin ihex_lexer0)
        (encodeRecord 2 0 2 [16 / 256, 16 % 256] 236)).2.1.ext_offset = 16 * 16
    ∧ (ihex_Run (some cbContinue) (ihex_Begin ihex_lexer0)
        (encodeRecord 2 0 2 [16 / 256, 16 % 256] 236)).2.1.state
        = IHEX_LEXER_STATE_WAIT_COLON
    ∧ (∀ off2 b chk2, off2 < 65536 → b < 256 → chk2 < 256 →
        (ihex_Run (some cbContinue)
            (ihex_Run (some cbContinue) (ihex_Begin ihex_lexer0)
              (encodeRecord 2 0 2 [16 / 256, 16 % 256] 236)).2.1
            (encodeRecord 1 off2 0 [b] chk2)).2.2
          = [((16 * 16 + off2) % 4294967296, b)])
    ∧ (ihex_Run (some cbContinue) (ihex_Begin ihex_lexer0)
        (strBytes ":020000020010")).2.1.ext_offset = 256
    ∧ (ihex_Run (some cbContinue) (ihex_Begin ihex_lexer0)
        (strBytes ":020000020010EC:0100050055A5")).2.2 = [(261, 85)] :=
  C7_segment_extension cbContinue (ihex_Begin ihex_lexer0) 16 0 236 (by decide)
    (by decide) (by decide) (by decide)

/-- The lexer state after one complete type-04 (extended linear address)
record with a 2-byte payload carrying the 16-bit value U: back in
`WAIT_COLON`, the extension offset holds the reassembled payload in bits
16-31, the running checksum is finalised; no callback invocation happened. -/
theorem ihex_Run_linear_record (f : ihex_tDataCallback) (L : ihex_tLexer)
    (U off chk : Nat) (hs : L.state = IHEX_LEXER_STATE_WAIT_COLON)
    (hU : U < 65536) (hoff : off < 65536) (hchk : chk < 256) :
    (ihex_Run (some f) L (encodeRecord 2 off 4 [U / 256, U % 256] chk)).2
      = ({ state := IHEX_LEXER_STATE_WAIT_COLON, num_expected_characters := 0,
           ext_offset_byte_pos := 1,
           ext_offset := U / 256 * 16777216 + U % 256 * 65536,
           rec_byte_offset := 2,
           calc_chksum := ((ihex_recordSum 2 off 4 [U / 256, U % 256] ^^^ 255) + 1) % 256,
           record_data := ({ record_mark := 58, reclen := 2, load_offset := off, rectyp := 4, data := 0, target_check_sum := chk } : ihex_tRecordData) },
          []) := by
  have hrec : encodeRecord 2 off 4 [U / 256, U % 256] chk
      = 58 :: (encodeByte 2 ++ (encodeWord16 off ++ (encodeByte 4
        ++ (encodeByte (U / 256) ++ (encodeByte (U % 256) ++ (encodeByte chk ++ [])))))) := by
    simp [encodeRecord, payloadChars]
  rw [hrec, ihex_Run_mark (some f) L _ hs]
  rw [ihex_Run_reclen (some f) (lexerAfterMark L) _ 2 (by simp [lexerAfterMark])
    (by simp [lexerAfterMark]) (by simp [lexerAfterMark, ihex_zeroRecordData]) (by omega)]
  rw [ihex_Run_addr (some f) _ _ off (by simp [lexerAfterLen]) (by simp [lexerAfterLen])
    (by simp [lexerAfterLen, lexerAfterMark, ihex_zeroRecordData]) hoff]
  rw [ihex_Run_rectyp (some f) _ _ 4 (by simp [lexerAfterAddr]) (by simp [lexerAfterAddr])
    (by simp [lexerAfterAddr, lexerAfterLen, lexerAfterMark, ihex_zeroRecordData])
    (by omega)]
  rw [ihex_Run_linear2 (some f) _ _ (U / 256) (U % 256)
    (by simp [lexerAfterType, lexerAfterAddr, lexerAfterLen, lexerAfterMark,
      ihex_zeroRecordData])
    (by simp [lexerAfterType, lexerAfterAddr, lexerAfterLen, lexerAfterMark,
      ihex_zeroRecordData])
    (by simp [lexerAfterType, lexerAfterAddr, lexerAfterLen, lexerAfterMark,
      ihex_zeroRecordData])
    (by simp [lexerAfterType])
    (by simp [lexerAfterType])
    (by simp [lexerAfterType])
    (by simp [lexerAfterType, lexerAfterAddr, lexerAfterLen, lexerAfterMark,
      ihex_zeroRecordData])
    (by omega) (by omega)]
  rw [ihex_Run_chksum (some f) _ [] chk (by rfl) (by rfl)
    (by simp [lexerAfterType, lexerAfterAddr, lexerAfterLen, lexerAfterMark,
      ihex_zeroRecordData]) hchk]
  simp only [ihex_Run]
  simp [lexerAfterChk, lexerAfterType, lexerAfterAddr, lexerAfterLen, lexerAfterMark,
    ihex_recordSum]
  rw [show (2 + (off / 256 + off % 256) + 4 + U / 256 + U) % 256
    = (2 + (off / 256 + off % 256) + 4 + (U / 256 + U % 256)) % 256 from by omega]

/-- C8: a type-04 (extended linear address) record carrying the 16-bit value
U sets the extension base to U shifted left 16 bits, with no further
scaling; concretely `:02000004FFFF` yields base 0xFFFF0000 and a following
type-00 record at loadOffset 0x0010 produces callback address 0xFFFF0010. -/
theorem C8_linear_extension (f : ihex_tDataCallback) (L : ihex_tLexer)
    (U off chk : Nat) (hs : L.state = IHEX_LEXER_STATE_WAIT_COLON)
    (hU : U < 65536) (hoff : off < 65536) (hchk : chk < 256) :
    (ihex_Run (some f) L (encodeRecord 2 off 4 [U / 256, U % 256] chk)).2.1.ext_offset
        = 65536 * U
    ∧ (ihex_Run (some f) L (encodeRecord 2 off 4 [U / 256, U % 256] chk)).2.1.state
        = IHEX_LEXER_STATE_WAIT_COLON
    ∧ (∀ off2 b chk2, off2 < 65536 → b < 256 → chk2 < 256 →
        (ihex_Run (some f)
            (ihex_Run (some f) L (encodeRecord 2 off 4 [U / 256, U % 256] chk)).2.1
            (encodeRecord 1 off2 0 [b] chk2)).2.2
          = [((65536 * U + off2) % 4294967296, b)])
    ∧ (ihex_Run (some cbContinue) (ihex_Begin ihex_lexer0)
        (strBytes ":02000004FFFF")).2.1.ext_offset = 4294901760
    ∧ (ihex_Run (some cbContinue) (ihex_Begin ihex_lexer0)
        (strBytes ":02000004FFFFFC:01001000559A")).2.2 = [(4294901776, 85)] := by
  have h1 := ihex_Run_linear_record f L U off chk hs hU hoff hchk
  have hext : (ihex_Run (some f) L
      (encodeRecord 2 off 4 [U / 256, U % 256] chk)).2.1.ext_offset = 65536 * U := by
    rw [h1]
    simp
    omega
  have hstate : (ihex_Run (some f) L
      (encodeRecord 2 off 4 [U / 256, U % 256] chk)).2.1.state
      = IHEX_LEXER_STATE_WAIT_COLON := by
    rw [h1]
  refine ⟨hext, hstate, ?_, by decide, by decide⟩
  intro off2 b chk2 hoff2 hb hchk2
  obtain ⟨E2, P2, h2⟩ := ihex_Run_record (some f)
    (ihex_Run (some f) L (encodeRecord 2 off 4 [U / 256, U % 256] chk)).2.1
    off2 0 chk2 [b] hstate (by simp) (by simp) hoff2 (by omega) hchk2
    (by intro x hx; simp at hx; omega)
  simp only [List.length_singleton] at h2
  rw [h2]
  simp [dataTrace, dataCallTrace, hext]

/-- C8 witness: the linear value 0xFFFF yields base 0xFFFF0000 and a
following data record at loadOffset 0x0010 resolves to 0xFFFF0010. -/
theorem C8_linear_extension_witness :
    (ihex_Run (some cbContinue) (ihex_Begin ihex_lexer0)
        (encodeRecord 2 0 4 [65535 / 256, 65535 % 256] 252)).2.1.ext_offset
        = 65536 * 65535
    ∧ (ihex_Run (some cbContinue) (ihex_Begin ihex_lexer0)
        (encodeRecord 2 0 4 [65535 / 256, 65535 % 256] 252)).2.1.state
        = IHEX_LEXER_STATE_WAIT_COLON
    ∧ (∀ off2 b chk2, off2 < 65536 → b < 256 → chk2 < 256 →
        (ihex_Run (some cbContinue)
            (ihex_Run (some cbContinue) (ihex_Begin ihex_lexer0)
              (encodeRecord 2 0 4 [65535 / 256, 65535 % 256] 252)).2.1
            (encodeRecord 1 off2 0 [b] chk2)).2.2
          = [((65536 * 65535 + off2) % 4294967296, b)])
    ∧ (ihex_Run (some cbContinue) (ihex_Begin ihex_lexer0)
        (strBytes ":02000004FFFF")).2.1.ext_offset = 4294901760
    ∧ (ihex_Run (some cbContinue) (ihex_Begin ihex_lexer0)
        (strBytes ":02000004FFFFFC:01001000559A")).2.2 = [(4294901776, 85)] :=
  C8_linear_extension cbContinue (ihex_Begin ihex_lexer0) 65535 0 252 (by decide)
    (by decide) (by decide) (by decide)

/-- C9: when a type-02 or type-04 extension record completes with a
checksum mismatch, the final `ihex_Put` call reports `ChecksumError` but
nothing is rolled back: the extension base rebuilt from that record's
payload (S scaled by 16, resp. U shifted left 16) stays in effect and is
used for the absolute address of every byte of any subsequent type-00
record; likewise the callback invocations already made during a type-00
record that later fails its own checksum are not undone (its full per-byte
trace survives alongside the `ChecksumError` verdict); the concrete stream
`:02000004FFFF00` (bad checksum), `:01001000559A`, `:010000005500` (bad
checksum) exhibits both errors with the surviving trace and base. -/
theorem C9_no_rollback (f : ihex_tDataCallback) (L : ihex_tLexer)
    (hs : L.state = IHEX_LEXER_STATE_WAIT_COLON) :
    (∀ S off chk, S < 65536 → off < 65536 → chk < 256 →
      twosComplement8 (ihex_recordSum 2 off 2 [S / 256, S % 256]) ≠ chk →
      (ihex_Run (some f) L (encodeRecord 2 off 2 [S / 256, S % 256] chk)).1.getLast?
          = some IHEX_MESSAGE_CHECK_SUM_ERROR
        ∧ (ihex_Run (some f) L
            (encodeRecord 2 off 2 [S / 256, S % 256] chk)).2.1.ext_offset = 16 * S
        ∧ (∀ off2 chk2 (payload : List Nat), off2 < 65536 → chk2 < 256 →
            payload.length ≤ 255 → (∀ b ∈ payload, b < 256) →
            (ihex_Run (some f)
                (ihex_Run (some f) L (encodeRecord 2 off 2 [S / 256, S % 256] chk)).2.1
                (encodeRecord payload.length off2 0 payload chk2)).2.2
              = (List.range payload.length).map
                  (fun i => ((16 * S + off2 + i) % 4294967296, payload.getD i 0))))
    ∧ (∀ U off chk, U < 65536 → off < 65536 → chk < 256 →
      twosComplement8 (ihex_recordSum 2 off 4 [U / 256, U % 256]) ≠ chk →
      (ihex_Run (some f) L (encodeRecord 2 off 4 [U / 256, U % 256] chk)).1.getLast?
          = some IHEX_MESSAGE_CHECK_SUM_ERROR
        ∧ (ihex_Run (some f) L
            (encodeRecord 2 off 4 [U / 256, U % 256] chk)).2.1.ext_offset = 65536 * U
        ∧ (∀ off2 chk2 (payload : List Nat), off2 < 65536 → chk2 < 256 →
            payload.length ≤ 255 → (∀ b ∈ payload, b < 256) →
            (ihex_Run (some f)
                (ihex_Run (some f) L (encodeRecord 2 off 4 [U / 256, U % 256] chk)).2.1
                (encodeRecord payload.length off2 0 payload chk2)).2.2
              = (List.range payload.length).map
                  (fun i => ((65536 * U + off2 + i) % 4294967296, payload.getD i 0))))
    ∧ (∀ off chk (payload : List Nat), off < 65536 → chk < 256 →
        payload.length ≤ 255 → (∀ b ∈ payload, b < 256) →
        twosComplement8 (ihex_recordSum payload.length off 0 payload) ≠ chk →
        (ihex_Run (some f) L (encodeRecord payload.length off 0 payload chk)).1.getLast?
            = some IHEX_MESSAGE_CHECK_SUM_ERROR
          ∧ (ihex_Run (some f) L (encodeRecord payload.length off 0 payload chk)).2.2
            = (List.range payload.length).map
                (fun i => ((L.ext_offset + off + i) % 4294967296, payload.getD i 0)))
    ∧ (((ihex_Run (some cbContinue) (ihex_Begin ihex_lexer0) c9_input).1)[14]?
        = some IHEX_MESSAGE_CHECK_SUM_ERROR
      ∧ ((ihex_Run (some cbContinue) (ihex_Begin ihex_lexer0) c9_input).1)[40]?
        = some IHEX_MESSAGE_CHECK_SUM_ERROR
      ∧ (ihex_Run (some cbContinue) (ihex_Begin ihex_lexer0) c9_input).2.2
        = [(4294901776, 85), (4294901760, 85)]
      ∧ (ihex_Run (some cbContinue) (ihex_Begin ihex_lexer0) c9_input).2.1.ext_offset
        = 4294901760) := by
  refine ⟨?_, ?_, ?_, ?_⟩
  · intro S off chk hS hoff hchk hbad
    have h1 := ihex_Run_segment_record f L S off chk hs hS hoff hchk
    have hext : (ihex_Run (some f) L
        (encodeRecord 2 off 2 [S / 256, S % 256] chk)).2.1.ext_offset = 16 * S := by
      rw [h1]
      simp
      omega
    have hstate : (ihex_Run (some f) L
        (encodeRecord 2 off 2 [S / 256, S % 256] chk)).2.1.state
        = IHEX_LEXER_STATE_WAIT_COLON := by
      rw [h1]
    refine ⟨?_, hext, ?_⟩
    · obtain ⟨E, P, h⟩ := ihex_Run_record (some f) L off 2 chk [S / 256, S % 256] hs
        (by simp) (by simp) hoff (by omega) hchk
        (by intro x hx; simp at hx; rcases hx with h | h <;> omega)
      rw [show List.length [S / 256, S % 256] = 2 from rfl] at h
      rw [h, recordMsgs_getLast]
      simp only [twosComplement8] at hbad
      simp [recordFinalMsg, hbad]
    · intro off2 chk2 payload hoff2 hchk2 h255 hbytes
      rw [ihex_Run_type00_trace f _ off2 chk2 payload hstate h255 hoff2 hchk2 hbytes,
        hext]
  · intro U off chk hU hoff hchk hbad
    have h1 := ihex_Run_linear_record f L U off chk hs hU hoff hchk
    have hext : (ihex_Run (some f) L
        (encodeRecord 2 off 4 [U / 256, U % 256] chk)).2.1.ext_offset = 65536 * U := by
      rw [h1]
      simp
      omega
    have hstate : (ihex_Run (some f) L
        (encodeRecord 2 off 4 [U / 256, U % 256] chk)).2.1.state
        = IHEX_LEXER_STATE_WAIT_COLON := by
      rw [h1]
    refine ⟨?_, hext, ?_⟩
    · obtain ⟨E, P, h⟩ := ihex_Run_record (some f) L off 4 chk [U / 256, U % 256] hs
        (by simp) (by simp) hoff (by omega) hchk
        (by intro x hx; simp at hx; rcases hx with h | h <;> omega)
      rw [show List.length [U / 256, U % 256] = 2 from rfl] at h
      rw [h, recordMsgs_getLast]
      simp only [twosComplement8] at hbad
      simp [recordFinalMsg, hbad]
    · intro off2 chk2 payload hoff2 hchk2 h255 hbytes
      rw [ihex_Run_type00_trace f _ off2 chk2 payload hstate h255 hoff2 hchk2 hbytes,
        hext]
  · intro off chk payload hoff hchk h255 hbytes hbad
    refine ⟨?_, ihex_Run_type00_trace f L off chk payload hs h255 hoff hchk hbytes⟩
    rcases payload with _ | ⟨b, t⟩
    · have h := ihex_Run_record0 (some f) L off 0 chk hs hoff (by omega) hchk
      simp only [List.length_nil] at h hbad ⊢
      rw [h]
      simp only [twosComplement8] at hbad
      simp [recordFinalMsg, hbad]
    · obtain ⟨E, P, h⟩ := ihex_Run_record (some f) L off 0 chk (b :: t) hs (by simp)
        h255 hoff (by omega) hchk hbytes
      rw [h, recordMsgs_getLast]
      simp only [twosComplement8, List.length_cons] at hbad
      simp [recordFinalMsg, hbad]
  · set_option maxRecDepth 10000 in decide

/-- C9 witness: the type-02 record with value 0x0010 and wrong checksum 0x00
ends in `ChecksumError`, its base 0x100 survives, and a following one-byte
data record at loadOffset 5 is delivered at address 0x105. -/
theorem C9_no_rollback_witness :
    ((ihex_Run (some cbContinue) (ihex_Begin ihex_lexer0)
        (encodeRecord 2 0 2 [16 / 256, 16 % 256] 0)).1.getLast?
      = some IHEX_MESSAGE_CHECK_SUM_ERROR)
    ∧ ((ihex_Run (some cbContinue) (ihex_Begin ihex_lexer0)
        (encodeRecord 2 0 2 [16 / 256, 16 % 256] 0)).2.1.ext_offset = 16 * 16)
    ∧ ((ihex_Run (some cbContinue)
          (ihex_Run (some cbContinue) (ihex_Begin ihex_lexer0)
            (encodeRecord 2 0 2 [16 / 256, 16 % 256] 0)).2.1
          (encodeRecord (List.length [85]) 5 0 [85] 0)).2.2
        = (List.range (List.length [85])).map
            (fun i => ((16 * 16 + 5 + i) % 4294967296, List.getD [85] i 0))) := by
  have h := (C9_no_rollback cbContinue (ihex_Begin ihex_lexer0) (by decide)).1
    16 0 0 (by decide) (by decide) (by decide) (by decide)
  exact ⟨h.1, h.2.1, h.2.2 5 0 [85] (by decide) (by decide) (by decide) (by decide)⟩

/-- A NULL data callback behaves like a token sink: the token-stream result
for `none` matches the one for the always-`Continue` callback, except that
no invocation is recorded. -/
theorem ihex_LexerTokenStream_none (L : ihex_tLexer)
    (tt : ihex_tLexerTokenType) (td : Nat) :
    ihex_LexerTokenStream none L tt td
      = ((ihex_LexerTokenStream (some cbContinue) L tt td).1,
         (ihex_LexerTokenStream (some cbContinue) L tt td).2.1, []) := by
  cases tt <;> simp only [ihex_LexerTokenStream] <;> split_ifs <;> simp [cbContinue]

/-- A NULL data callback and an always-`Continue` callback produce the same
message and the same state for every byte; the NULL variant records no
invocation. -/
theorem ihex_Put_none (L : ihex_tLexer) (b : Nat) :
    ihex_Put none L b = ((ihex_Put (some cbContinue) L b).1,
      (ihex_Put (some cbContinue) L b).2.1, []) := by
  unfold ihex_Put
  split_ifs with h1 h2 h3
  · rfl
  · rfl
  · unfold ihex_Lexer
    cases hst : L.state <;>
      simp only [hst] <;>
      [skip; cases hcv : ihex_CharToValue b; cases hcv : ihex_CharToValue b;
        cases hcv : ihex_CharToValue b; cases hcv : ihex_CharToValue b;
        cases hcv : ihex_CharToValue b] <;>
      simp only [ihex_LexerTokenStream_none] <;>
      split_ifs <;>
      simp [ihex_LexerTokenStream_none]
  · rfl

/-- C10: with a NULL data callback every `ihex_Put` call returns exactly the
message it would return with an installed always-`Continue` callback, all
state updates are identical, and no callback invocation happens. -/
theorem C10_null_callback (L : ihex_tLexer) (input : List Nat) :
    (ihex_Run none L input).1 = (ihex_Run (some cbContinue) L input).1
    ∧ (ihex_Run none L input).2.1 = (ihex_Run (some cbContinue) L input).2.1
    ∧ (ihex_Run none L input).2.2 = [] := by
  induction input generalizing L with
  | nil => simp [ihex_Run]
  | cons b rest ih =>
      simp only [ihex_Run]
      have hp := ihex_Put_none L b
      rw [hp]
      obtain ⟨h1, h2, h3⟩ := ih ((ihex_Put (some cbContinue) L b).2.1)
      simp [h1, h2, h3]

end IHex
